import Mathlib

/-!
Verification of the session/game coordination layer of the online-chess server
(`src/main.rs`). The registries, the per-game `GameState`, and the five message
handlers (`create`, `join`, `move`, `get_moves`, `time_sync`) together with the
disconnect cleanup (`stopping`) are embedded shallowly below; the external Rules
Engine (the `chess` crate) is modelled from its contract in the specification.
-/

namespace OnlineChess

/-- Piece kinds of the Rules Engine (`chess::Piece`). -/
inductive Piece where
  | pawn
  | knight
  | bishop
  | rook
  | queen
  | king
deriving DecidableEq, Repr

/-- Side colors (`chess::Color`). -/
inductive Color where
  | white
  | black
deriving DecidableEq, Repr

/-- The opposite color (`!color` in the chess crate). -/
def Color.other : Color → Color
  | .white => .black
  | .black => .white

/-- `color_to_string` (src/main.rs:1104-1109). -/
def color_to_string : Color → String
  | .white => "white"
  | .black => "black"

/-- A board maps a square index (`rank * 8 + file`, as produced by
`chess::Square::make_square`) to the piece and color standing on it; this models
`chess::Board::piece_on` together with `chess::Board::color_on`. -/
def Board := Nat → Option (Piece × Color)

/-- Modelled from the spec: the Rules Engine position (`chess::Game`), opaque to
the core except for its piece placement (`current_position`) and its side to
move (`side_to_move`). -/
structure Position where
  board : Board
  sideToMove : Color

/-- `chess::GameResult`. -/
inductive GameResult where
  | WhiteCheckmates
  | WhiteResigns
  | BlackCheckmates
  | BlackResigns
  | Stalemate
  | DrawAccepted
  | DrawDeclared
deriving DecidableEq, Repr

/-- `chess::ChessMove` as built by `ChessMove::new(source, dest, promotion)`. -/
structure ChessMove where
  source : Nat
  dest : Nat
  promotion : Option Piece
deriving DecidableEq, Repr

/-- Piece counts accumulated by `has_insufficient_material`
(src/main.rs:1132-1189). -/
structure Counts where
  white_pawns : Nat
  white_knights : Nat
  white_bishops : Nat
  white_rooks : Nat
  white_queens : Nat
  black_pawns : Nat
  black_knights : Nat
  black_bishops : Nat
  black_rooks : Nat
  black_queens : Nat
deriving DecidableEq, Repr

/-- One iteration of the counting loop in `has_insufficient_material`
(src/main.rs:1148-1187): kings fall into the ignored `_` arm. -/
def Counts.bump (c : Counts) (p : Piece) (col : Color) : Counts :=
  match p with
  | .pawn =>
    if col = .white then { c with white_pawns := c.white_pawns + 1 }
    else { c with black_pawns := c.black_pawns + 1 }
  | .knight =>
    if col = .white then { c with white_knights := c.white_knights + 1 }
    else { c with black_knights := c.black_knights + 1 }
  | .bishop =>
    if col = .white then { c with white_bishops := c.white_bishops + 1 }
    else { c with black_bishops := c.black_bishops + 1 }
  | .rook =>
    if col = .white then { c with white_rooks := c.white_rooks + 1 }
    else { c with black_rooks := c.black_rooks + 1 }
  | .queen =>
    if col = .white then { c with white_queens := c.white_queens + 1 }
    else { c with black_queens := c.black_queens + 1 }
  | .king => c

/-- The nested rank/file loops of `has_insufficient_material`
(src/main.rs:1144-1189). -/
def countMaterial (board : Board) : Counts :=
  (List.range 8).foldl
    (fun acc rank =>
      (List.range 8).foldl
        (fun acc file =>
          match board (rank * 8 + file) with
          | some (p, col) => acc.bump p col
          | none => acc)
        acc)
    ⟨0, 0, 0, 0, 0, 0, 0, 0, 0, 0⟩

/-- `has_insufficient_material` (src/main.rs:1132-1231): the if/else-if cascade
over the piece counts; every case not listed falls through to `false`. -/
def hasInsufficientMaterial (board : Board) : Bool :=
  let c := countMaterial board
  if c.white_pawns = 0 ∧ c.white_knights = 0 ∧ c.white_bishops = 0 ∧
     c.white_rooks = 0 ∧ c.white_queens = 0 then
    if c.black_pawns = 0 ∧ c.black_knights = 0 ∧ c.black_bishops = 0 ∧
       c.black_rooks = 0 ∧ c.black_queens = 0 then
      true
    else if c.black_pawns = 0 ∧ c.black_knights = 0 ∧ c.black_bishops = 0 ∧
            c.black_rooks = 0 ∧ c.black_queens = 1 then
      false
    else if c.black_pawns = 0 ∧ c.black_knights = 0 ∧ c.black_bishops = 0 ∧
            c.black_rooks = 1 ∧ c.black_queens = 0 then
      false
    else if c.black_pawns = 0 ∧ c.black_knights = 0 ∧ c.black_bishops = 1 ∧
            c.black_rooks = 0 ∧ c.black_queens = 0 then
      true
    else if c.black_pawns = 0 ∧ c.black_knights = 1 ∧ c.black_bishops = 0 ∧
            c.black_rooks = 0 ∧ c.black_queens = 0 then
      true
    else
      false
  else if c.black_pawns = 0 ∧ c.black_knights = 0 ∧ c.black_bishops = 0 ∧
          c.black_rooks = 0 ∧ c.black_queens = 0 then
    if c.white_pawns = 0 ∧ c.white_knights = 0 ∧ c.white_bishops = 0 ∧
       c.white_rooks = 0 ∧ c.white_queens = 0 then
      true
    else if c.white_pawns = 0 ∧ c.white_knights = 0 ∧ c.white_bishops = 0 ∧
            c.white_rooks = 0 ∧ c.white_queens = 1 then
      false
    else if c.white_pawns = 0 ∧ c.white_knights = 0 ∧ c.white_bishops = 0 ∧
            c.white_rooks = 1 ∧ c.white_queens = 0 then
      false
    else if c.white_pawns = 0 ∧ c.white_knights = 0 ∧ c.white_bishops = 1 ∧
            c.white_rooks = 0 ∧ c.white_queens = 0 then
      true
    else if c.white_pawns = 0 ∧ c.white_knights = 1 ∧ c.white_bishops = 0 ∧
            c.white_rooks = 0 ∧ c.white_queens = 0 then
      true
    else
      false
  else
    false

/-- Modelled from the spec: `parse_square` of the Rules Engine
(`chess::Square::from_str`): at least two characters, a file letter in
`a`-`h` followed by a rank digit in `1`-`8`; extra characters are ignored. -/
def squareFromStr (s : String) : Option Nat :=
  match s.toList with
  | c0 :: c1 :: _ =>
    if 'a' ≤ c0 ∧ c0 ≤ 'h' then
      if '1' ≤ c1 ∧ c1 ≤ '8' then
        some ((c1.toNat - '1'.toNat) * 8 + (c0.toNat - 'a'.toNat))
      else none
    else none
  | _ => none

/-- Modelled from the source: `str::to_lowercase` as applied to square names
in `handle_get_moves` (src/main.rs:783); character-wise ASCII lowering. -/
def strToLower (s : String) : String := ⟨s.data.map Char.toLower⟩

/-- Square-index to text (`chess::Square::to_string`), used when listing
legal destinations in `handle_get_moves`. -/
def squareToStr (sq : Nat) : String :=
  String.mk [Char.ofNat (97 + sq % 8), Char.ofNat (49 + sq / 8)]

/-- Modelled from the spec: `Game::new()` of the Rules Engine — the back rank
piece on each file of the standard starting position. -/
def backRank (file : Nat) : Piece :=
  if file = 0 ∨ file = 7 then .rook
  else if file = 1 ∨ file = 6 then .knight
  else if file = 2 ∨ file = 5 then .bishop
  else if file = 3 then .queen
  else .king

/-- Modelled from the spec: the standard chess starting placement. -/
def initialBoard : Board := fun sq =>
  let rank := sq / 8
  let file := sq % 8
  if rank = 0 then some (backRank file, .white)
  else if rank = 1 then some (.pawn, .white)
  else if rank = 6 then some (.pawn, .black)
  else if rank = 7 then some (backRank file, .black)
  else none

/-- Modelled from the spec: `Game::new()` — standard starting position, white
to move. -/
def initialPosition : Position := ⟨initialBoard, .white⟩

/-- `ClientMessage` (src/main.rs:104-114). -/
structure ClientMessage where
  message_type : String
  game_id : Option String
  move_from : Option String
  move_to : Option String
  color_preference : Option String
  start_time_minutes : Option Nat
  increment_seconds : Option Nat
deriving DecidableEq, Repr

/-- `LastMove` (src/main.rs:133-138). -/
structure LastMove where
  lm_from : String
  lm_to : String
deriving DecidableEq, Repr

/-- `ServerMessage` (src/main.rs:116-131). -/
structure ServerMessage where
  message_type : String
  game_id : Option String
  fen : Option String
  color : Option String
  error : Option String
  available_moves : Option (List String)
  last_move : Option LastMove
  game_status : Option String
  white_time_ms : Option Nat
  black_time_ms : Option Nat
  increment_ms : Option Nat
  active_color : Option String
deriving DecidableEq, Repr

/-- The error-reply shape shared by every failure path: `message_type`
`"error"`, optional `game_id`, the message text, all other fields `None`. -/
def errorMsg (gid : Option String) (e : String) : ServerMessage :=
  ⟨"error", gid, none, none, some e, none, none, none, none, none, none, none⟩

/-- `GameState` (src/main.rs:91-102). Times are milliseconds (`u64`);
`last_move_time` is the `Instant` of the last clock tick, as milliseconds. -/
structure GameState where
  game : Position
  white_player : Option String
  black_player : Option String
  white_time_ms : Nat
  black_time_ms : Nat
  increment_ms : Nat
  last_move_time : Option Nat
  active_player : Option Color
  game_result : Option GameResult

/-- The per-connection actor fields of `ChessWebSocket` (src/main.rs:18-23);
the `app_state` handle is passed separately. -/
structure ChessWebSocket where
  id : String
  game_id : String
  color : Option Color
deriving DecidableEq, Repr

/-- `AppState` (src/main.rs:85-89): the three registries. `HashMap`s are
modelled as association lists; the `sessions` registry keeps only the ids
(the actix delivery handles carry no state relevant to the claims). -/
structure AppState where
  games : List (String × GameState)
  connections : List (String × List String)
  sessions : List String

/-- `HashMap::get`. -/
def lookup {α : Type} : List (String × α) → String → Option α
  | [], _ => none
  | (k, v) :: rest, j => if k = j then some v else lookup rest j

/-- `HashMap::remove`. -/
def removeKey {α : Type} (m : List (String × α)) (k : String) : List (String × α) :=
  m.filter (fun p => p.1 ≠ k)

/-- `HashMap::insert` (replacing any previous binding of the key). -/
def insertKey {α : Type} (m : List (String × α)) (k : String) (v : α) : List (String × α) :=
  (k, v) :: removeKey m k

/-- The ordered list of session ids attached to a game (the
`connections` registry entry, or empty when absent). -/
def connList (st : AppState) (g : String) : List String :=
  (lookup st.connections g).getD []

/-- An outbound delivery performed by a handler: a direct `ctx.text` reply to
the acting connection, or a `broadcast_to_game` fan-out. -/
inductive Effect where
  | send (msg : ServerMessage)
  | broadcastMsg (game_id : String) (msg : ServerMessage)
deriving DecidableEq, Repr

/-- The outcome of one handler invocation: the actor's updated fields, the
updated registries, and the messages it emitted. -/
structure HandlerResult where
  ws : ChessWebSocket
  state : AppState
  effects : List Effect

/-- Modelled from the spec: the external Rules Engine (the `chess` crate).
`applyMove` is `Game::make_move`: the new piece placement when the move is
legal (`true` in the source), `none` when the move is rejected. `legalMoves`
is `MoveGen::new_legal`; `inCheck` is `Board::checkers().0 > 0`; `toText` is
the FEN serialization `Board::to_string`. -/
structure RulesEngine where
  applyMove : Position → ChessMove → Option Board
  legalMoves : Position → List ChessMove
  inCheck : Position → Bool
  toText : Position → String

/-- Modelled from the spec: a completed legal move hands the turn to the other
color, so the position after `Game::make_move` has the flipped side to move
over the piece placement returned by the Rules Engine. -/
def makeMove (re : RulesEngine) (p : Position) (m : ChessMove) : Option Position :=
  (re.applyMove p m).map (fun b => ⟨b, p.sideToMove.other⟩)

/-- `get_game_status` (src/main.rs:1111-1130). -/
def get_game_status (re : RulesEngine) (game : Position)
    (game_result : Option GameResult) : String :=
  match game_result with
  | some .WhiteCheckmates => "white_wins"
  | some .BlackCheckmates => "black_wins"
  | some .WhiteResigns => "black_wins"
  | some .BlackResigns => "white_wins"
  | some .Stalemate => "draw"
  | some .DrawAccepted => "draw"
  | some .DrawDeclared => "draw"
  | none =>
    if re.inCheck game then "check"
    else if game.sideToMove = .white then "white_turn"
    else "black_turn"

/-- The seat-derived color of a session in a game, as computed inline in
`handle_move` (src/main.rs:562-568) and `handle_get_moves`
(src/main.rs:790-796). -/
def seatColor (gs : GameState) (id : String) : Option Color :=
  if gs.white_player = some id then some .white
  else if gs.black_player = some id then some .black
  else none

/-- `ChessWebSocket::handle_create` (src/main.rs:237-303). `newGameId` stands
for the fresh `Uuid::new_v4()`. Returns `none` on the (unreachable) `unwrap`
of the just-inserted game. -/
def handle_create (re : RulesEngine) (newGameId : String) (self : ChessWebSocket)
    (msg : ClientMessage) (st : AppState) : Option HandlerResult :=
  let start_time_minutes := msg.start_time_minutes.getD 15
  let increment_seconds := msg.increment_seconds.getD 10
  let self' : ChessWebSocket := ⟨self.id, newGameId, some Color.white⟩
  let connections := insertKey st.connections newGameId
      (((lookup st.connections newGameId).getD []) ++ [self.id])
  let games := insertKey st.games newGameId
      ⟨initialPosition, some self.id, none,
       start_time_minutes * 60 * 1000, start_time_minutes * 60 * 1000,
       increment_seconds * 1000, none, some Color.white, none⟩
  match lookup games newGameId with
  | none => none
  | some gs2 =>
    let game_status := if gs2.black_player = none then "waiting_for_opponent"
                       else "in_progress"
    let fen := re.toText gs2.game
    let outMsg : ServerMessage :=
      ⟨"game_created", some newGameId, some fen, some "white", none, none, none,
       some game_status, some (start_time_minutes * 60 * 1000),
       some (start_time_minutes * 60 * 1000), some (increment_seconds * 1000), none⟩
    some ⟨self', ⟨games, connections, st.sessions⟩, [.send outMsg]⟩

/-- The leave-previous-game sequence at the top of `handle_join`
(src/main.rs:310-342): remove the session from the old game's connection
list, vacate any seat it held, and clear the actor's game id and color. -/
def leaveGame (self : ChessWebSocket) (st : AppState) : ChessWebSocket × AppState :=
  if self.game_id = "" then (self, st)
  else
    let connections :=
      match lookup st.connections self.game_id with
      | none => st.connections
      | some l => insertKey st.connections self.game_id (l.filter (fun i => i ≠ self.id))
    let games :=
      match lookup st.games self.game_id with
      | none => st.games
      | some gs =>
        let gs1 := if gs.white_player = some self.id then { gs with white_player := none }
                   else gs
        let gs2 := if gs1.black_player = some self.id then { gs1 with black_player := none }
                   else gs1
        insertKey st.games self.game_id gs2
    (⟨self.id, "", none⟩, ⟨games, connections, st.sessions⟩)

/-- The successful tail of `handle_join` (src/main.rs:380-450) once a seat has
been assigned: update the actor, add it to the connection index (idempotently),
start the clock when both seats are filled, reply `joined` and broadcast
`player_joined`. -/
def joinAs (re : RulesEngine) (now : Nat) (self : ChessWebSocket) (st : AppState)
    (gid : String) (gs : GameState) (player_color : Color) : HandlerResult :=
  let self' : ChessWebSocket := ⟨self.id, gid, some player_color⟩
  let connections :=
    match lookup st.connections gid with
    | some l => if self.id ∈ l then st.connections
                else insertKey st.connections gid (l ++ [self.id])
    | none => insertKey st.connections gid [self.id]
  let fen := re.toText gs.game
  let game_status := "in_progress"
  let gs2 := if gs.black_player.isSome ∧ gs.white_player.isSome then
               { gs with last_move_time := some now }
             else gs
  let joined : ServerMessage :=
    ⟨"joined", some gid, some fen, some (color_to_string player_color), none, none,
     none, some game_status, some gs2.white_time_ms, some gs2.black_time_ms,
     some gs2.increment_ms, none⟩
  let pj : ServerMessage :=
    ⟨"player_joined", some gid, some fen, some (color_to_string player_color), none,
     none, none, some game_status, some gs2.white_time_ms, some gs2.black_time_ms,
     some gs2.increment_ms, none⟩
  ⟨self', ⟨insertKey st.games gid gs2, connections, st.sessions⟩,
   [.send joined, .broadcastMsg gid pj]⟩

/-- `ChessWebSocket::handle_join` (src/main.rs:305-489). -/
def handle_join (re : RulesEngine) (now : Nat) (self : ChessWebSocket)
    (msg : ClientMessage) (st : AppState) : HandlerResult :=
  match msg.game_id with
  | none => ⟨self, st, [.send (errorMsg none "Game ID is required to join a game")]⟩
  | some gid =>
    let p := leaveGame self st
    let self1 := p.1
    let st1 := p.2
    match lookup st1.games gid with
    | none => ⟨self1, st1, [.send (errorMsg (some gid) "Game not found")]⟩
    | some gs =>
      if gs.white_player = none then
        joinAs re now self1 st1 gid { gs with white_player := some self1.id } .white
      else if gs.black_player = none then
        joinAs re now self1 st1 gid { gs with black_player := some self1.id } .black
      else
        ⟨self1, st1, [.send (errorMsg (some gid) "Game is full")]⟩

/-- `ChessWebSocket::handle_move` (src/main.rs:491-735). `now` is
`Instant::now()` in milliseconds. The result is `none` exactly when the
handler panics: the `unwrap` on `Square::from_str` of an unparseable square
(src/main.rs:590-591). -/
def handle_move (re : RulesEngine) (now : Nat) (self : ChessWebSocket)
    (msg : ClientMessage) (st : AppState) : Option HandlerResult :=
  if self.game_id = "" then
    some ⟨self, st, [.send (errorMsg none "You are not in a game")]⟩
  else
    let mfrom := msg.move_from.getD ""
    let mto := msg.move_to.getD ""
    if mfrom = "" ∨ mto = "" then
      some ⟨self, st, [.send (errorMsg (some self.game_id) "Invalid move format")]⟩
    else
      match lookup st.games self.game_id with
      | none => some ⟨self, st, [.send (errorMsg (some self.game_id) "Game not found")]⟩
      | some gs =>
        if gs.game_result.isSome then
          some ⟨self, st, [.send (errorMsg (some self.game_id) "Game has already ended")]⟩
        else
          let current_turn := gs.game.sideToMove
          let player_color := seatColor gs self.id
          if player_color ≠ some current_turn then
            some ⟨self, st, [.send (errorMsg (some self.game_id) "It\x27s not your turn")]⟩
          else
            match squareFromStr mfrom with
            | none => none
            | some from_square =>
              match squareFromStr mto with
              | none => none
              | some to_square =>
                match gs.game.board from_square with
                | none =>
                  some ⟨self, st,
                    [.send (errorMsg (some self.game_id) "No piece at the selected square")]⟩
                | some _ =>
                  let chess_move : ChessMove := ⟨from_square, to_square, none⟩
                  match makeMove re gs.game chess_move with
                  | none =>
                    some ⟨self, st, [.send (errorMsg (some self.game_id) "Invalid move")]⟩
                  | some newGame =>
                    let gs1 :=
                      match gs.last_move_time with
                      | none => { gs with game := newGame }
                      | some last_move_time =>
                        let elapsed := now - last_move_time
                        match player_color with
                        | some .white =>
                          if gs.white_time_ms > elapsed then
                            { gs with
                              game := newGame,
                              white_time_ms := gs.white_time_ms - elapsed + gs.increment_ms }
                          else
                            { gs with
                              game := newGame, white_time_ms := 0,
                              game_result := some (if hasInsufficientMaterial newGame.board
                                then .DrawDeclared else .WhiteResigns) }
                        | some .black =>
                          if gs.black_time_ms > elapsed then
                            { gs with
                              game := newGame,
                              black_time_ms := gs.black_time_ms - elapsed + gs.increment_ms }
                          else
                            { gs with
                              game := newGame, black_time_ms := 0,
                              game_result := some (if hasInsufficientMaterial newGame.board
                                then .DrawDeclared else .BlackResigns) }
                        | none => { gs with game := newGame }
                    let gs2 := { gs1 with
                                 last_move_time := some now,
                                 active_player := some newGame.sideToMove }
                    let status := get_game_status re newGame gs2.game_result
                    let outMsg : ServerMessage :=
                      ⟨"move_made", some self.game_id, some (re.toText newGame), none,
                       none, none, some ⟨mfrom, mto⟩, some status,
                       some gs2.white_time_ms, some gs2.black_time_ms,
                       some gs2.increment_ms, none⟩
                    some ⟨self, ⟨insertKey st.games self.game_id gs2,
                                 st.connections, st.sessions⟩,
                          [.broadcastMsg self.game_id outMsg]⟩

/-- `ChessWebSocket::handle_get_moves` (src/main.rs:737-903). The result is
`none` exactly when the handler panics: the `unwrap` on `Square::from_str`
of an unparseable square (src/main.rs:783). -/
def handle_get_moves (re : RulesEngine) (self : ChessWebSocket)
    (msg : ClientMessage) (st : AppState) : Option HandlerResult :=
  if self.game_id = "" then
    some ⟨self, st, [.send (errorMsg none "Not in a game")]⟩
  else
    match msg.move_from with
    | none =>
      some ⟨self, st, [.send (errorMsg (some self.game_id) "No from square provided")]⟩
    | some mfrom =>
      match lookup st.games self.game_id with
      | none => some ⟨self, st, [.send (errorMsg (some self.game_id) "Game not found")]⟩
      | some gs =>
        match squareFromStr (strToLower mfrom) with
        | none => none
        | some from_square =>
          match gs.game.board from_square with
          | none =>
            some ⟨self, st, [.send (errorMsg (some self.game_id) "No piece at that square")]⟩
          | some (_, piece_color) =>
            let current_turn := gs.game.sideToMove
            let player_color := seatColor gs self.id
            if player_color ≠ some current_turn then
              some ⟨self, st, [.send (errorMsg (some self.game_id) "Not your turn")]⟩
            else if player_color ≠ some piece_color then
              some ⟨self, st, [.send (errorMsg (some self.game_id) "Not your piece")]⟩
            else
              let valid_moves :=
                ((re.legalMoves gs.game).filter (fun m => m.source = from_square)).map
                  (fun m => squareToStr m.dest)
              some ⟨self, st,
                [.send ⟨"available_moves", some self.game_id, none, none, none,
                        some valid_moves, none, none, none, none, none, none⟩]⟩

/-- `ChessWebSocket::handle_time_sync` (src/main.rs:905-1035). -/
def handle_time_sync (re : RulesEngine) (now : Nat) (self : ChessWebSocket)
    (msg : ClientMessage) (st : AppState) : HandlerResult :=
  match msg.game_id with
  | none => ⟨self, st, [.send (errorMsg none "Game ID is required")]⟩
  | some gid =>
    match lookup st.games gid with
    | none => ⟨self, st, [.send (errorMsg (some gid) "Game not found")]⟩
    | some gs =>
      let gs1 :=
        match gs.last_move_time with
        | none => gs
        | some last_move_time =>
          let elapsed := now - last_move_time
          if gs.white_player.isSome ∧ gs.black_player.isSome then
            let gsU :=
              match gs.active_player with
              | some .white =>
                if gs.white_time_ms > elapsed then
                  { gs with white_time_ms := gs.white_time_ms - elapsed }
                else
                  { gs with
                    white_time_ms := 0,
                    game_result := some (if hasInsufficientMaterial gs.game.board
                      then .DrawDeclared else .WhiteResigns) }
              | some .black =>
                if gs.black_time_ms > elapsed then
                  { gs with black_time_ms := gs.black_time_ms - elapsed }
                else
                  { gs with
                    black_time_ms := 0,
                    game_result := some (if hasInsufficientMaterial gs.game.board
                      then .DrawDeclared else .BlackResigns) }
              | none => gs
            { gsU with last_move_time := some now }
          else gs
      let active_color := match gs1.game.sideToMove with
        | .white => "white"
        | .black => "black"
      let status := get_game_status re gs1.game gs1.game_result
      let outMsg : ServerMessage :=
        ⟨"time_sync", some gid, some (re.toText gs1.game), none, none, none, none,
         some status, some gs1.white_time_ms, some gs1.black_time_ms,
         some gs1.increment_ms, some active_color⟩
      ⟨self, ⟨insertKey st.games gid gs1, st.connections, st.sessions⟩,
       [.broadcastMsg gid outMsg]⟩

/-- `Actor::started` (src/main.rs:28-37): register the session id. -/
def started (self : ChessWebSocket) (st : AppState) : AppState :=
  ⟨st.games, st.connections, self.id :: st.sessions.filter (fun i => i ≠ self.id)⟩

/-- `Actor::stopping` (src/main.rs:39-81): disconnect cleanup — remove the
session from its game's connection list, garbage-collect the game when the
list empties, vacate any seat, and deregister the session. -/
def stopping (self : ChessWebSocket) (st : AppState) : AppState :=
  let st1 :=
    if self.game_id = "" then st
    else
      let stA :=
        match lookup st.connections self.game_id with
        | none => st
        | some l =>
          let l' := l.filter (fun i => i ≠ self.id)
          if l'.isEmpty then
            ⟨removeKey st.games self.game_id,
             removeKey st.connections self.game_id, st.sessions⟩
          else
            ⟨st.games, insertKey st.connections self.game_id l', st.sessions⟩
      match lookup stA.games self.game_id with
      | none => stA
      | some gs =>
        let gs1 := if gs.white_player = some self.id then { gs with white_player := none }
                   else gs
        let gs2 := if gs1.black_player = some self.id then { gs1 with black_player := none }
                   else gs1
        ⟨insertKey stA.games self.game_id gs2, stA.connections, stA.sessions⟩
  ⟨st1.games, st1.connections, st1.sessions.filter (fun i => i ≠ self.id)⟩

/-- Modelled from the spec: the chess promotion rule — a pawn moving onto its
final rank (rank index 7 for white, 0 for black) is legal only as a promotion,
so the Rules Engine rejects such a move when no promotion piece is supplied. -/
def isPawnToLastRank (p : Position) (m : ChessMove) : Bool :=
  match p.board m.source with
  | some (Piece.pawn, Color.white) => m.dest / 8 == 7
  | some (Piece.pawn, Color.black) => m.dest / 8 == 0
  | _ => false

/-- One per-connection actor state (`game_id`, `color`) as tracked by the
coordination machine. -/
structure Conn where
  game_id : String
  color : Option Color
deriving DecidableEq, Repr

/-- Global machine state: the shared registries plus every live connection's
actor fields. -/
structure Machine where
  app : AppState
  conns : List (String × Conn)

/-- Rebuild the actor view of a connection. -/
def wsOf (id : String) (c : Conn) : ChessWebSocket := ⟨id, c.game_id, c.color⟩

/-- Project the actor back to its tracked fields. -/
def connOf (w : ChessWebSocket) : Conn := ⟨w.game_id, w.color⟩

/-- The transition relation of the coordination layer: a fresh connection
arriving, one of the five message handlers run by a live connection, or a
disconnect. `createStep` carries the precondition that the creating session is
not currently attached to a game: `handle_create` performs no leave sequence,
so a create by an attached session leaves the session in two connection lists
(refuted concretely below), and the exclusivity invariant is provable only for
the restricted relation. Game ids handed to `create` are fresh non-empty
UUIDs, hence `gid ≠ ""`; handler steps that panic (result `none`) make no
transition. -/
inductive Step : Machine → Machine → Prop where
  | connect (m : Machine) (id : String) :
      lookup m.conns id = none →
      Step m ⟨started ⟨id, "", none⟩ m.app, insertKey m.conns id ⟨"", none⟩⟩
  | createStep (m : Machine) (re : RulesEngine) (id gid : String) (c : Conn)
      (msg : ClientMessage) (r : HandlerResult) :
      lookup m.conns id = some c →
      c.game_id = "" →
      gid ≠ "" →
      handle_create re gid (wsOf id c) msg m.app = some r →
      Step m ⟨r.state, insertKey m.conns id (connOf r.ws)⟩
  | joinStep (m : Machine) (re : RulesEngine) (now : Nat) (id : String) (c : Conn)
      (msg : ClientMessage) :
      lookup m.conns id = some c →
      Step m ⟨(handle_join re now (wsOf id c) msg m.app).state,
              insertKey m.conns id (connOf (handle_join re now (wsOf id c) msg m.app).ws)⟩
  | moveStep (m : Machine) (re : RulesEngine) (now : Nat) (id : String) (c : Conn)
      (msg : ClientMessage) (r : HandlerResult) :
      lookup m.conns id = some c →
      handle_move re now (wsOf id c) msg m.app = some r →
      Step m ⟨r.state, insertKey m.conns id (connOf r.ws)⟩
  | getMovesStep (m : Machine) (re : RulesEngine) (id : String) (c : Conn)
      (msg : ClientMessage) (r : HandlerResult) :
      lookup m.conns id = some c →
      handle_get_moves re (wsOf id c) msg m.app = some r →
      Step m ⟨r.state, insertKey m.conns id (connOf r.ws)⟩
  | timeSyncStep (m : Machine) (re : RulesEngine) (now : Nat) (id : String) (c : Conn)
      (msg : ClientMessage) :
      lookup m.conns id = some c →
      Step m ⟨(handle_time_sync re now (wsOf id c) msg m.app).state,
              insertKey m.conns id (connOf (handle_time_sync re now (wsOf id c) msg m.app).ws)⟩
  | disconnectStep (m : Machine) (id : String) (c : Conn) :
      lookup m.conns id = some c →
      Step m ⟨stopping (wsOf id c) m.app, removeKey m.conns id⟩

/-- The empty server: no games, no connections, no sessions. -/
def initMachine : Machine := ⟨⟨[], [], []⟩, []⟩

/-- States the server can actually be in. -/
def Reachable (m : Machine) : Prop := Relation.ReflTransGen Step initMachine m

/-- The inductive invariant behind connection-list exclusivity: no registry is
keyed by the empty game id, and every session id listed under a game is a live
connection whose own `game_id` field names that very game. -/
def Inv (m : Machine) : Prop :=
  lookup m.app.connections "" = none ∧
  lookup m.app.games "" = none ∧
  ∀ id g, id ∈ connList m.app g → ∃ c, lookup m.conns id = some c ∧ c.game_id = g

/-- A Rules Engine stub that rejects every move; used to instantiate theorems
at concrete inputs. -/
def stubEngine : RulesEngine :=
  ⟨fun _ _ => none, fun _ => [], fun _ => false, fun _ => ""⟩

/-- A Rules Engine stub accepting exactly one source/dest pair (with no
promotion piece), producing the given placement. -/
def engineWithMove (src dst : Nat) (b : Board) : RulesEngine :=
  ⟨fun _ m => if m.source = src ∧ m.dest = dst ∧ m.promotion = none then some b
              else none,
   fun _ => [], fun _ => false, fun _ => ""⟩

/-- White king e1, white queen d1, black king e8. -/
def boardWQd1 : Board := fun sq =>
  if sq = 3 then some (.queen, .white)
  else if sq = 4 then some (.king, .white)
  else if sq = 60 then some (.king, .black)
  else none

/-- White king e1, white queen d2, black king e8 (the placement after Qd1-d2). -/
def boardWQd2 : Board := fun sq =>
  if sq = 11 then some (.queen, .white)
  else if sq = 4 then some (.king, .white)
  else if sq = 60 then some (.king, .black)
  else none

/-- Bare kings on e1 and e8. -/
def boardKK : Board := fun sq =>
  if sq = 4 then some (.king, .white)
  else if sq = 60 then some (.king, .black)
  else none

/-- Bare kings on e2 and e8 (the placement after Ke1-e2). -/
def boardKK2 : Board := fun sq =>
  if sq = 12 then some (.king, .white)
  else if sq = 60 then some (.king, .black)
  else none

/-- A `move` client message. -/
def moveMsg (f t : String) : ClientMessage := ⟨"move", none, some f, some t, none, none, none⟩

/-- A `join` client message. -/
def joinMsg (g : String) : ClientMessage := ⟨"join", some g, none, none, none, none, none⟩

/-- A `create` client message with absent time fields. -/
def createMsg : ClientMessage := ⟨"create", none, none, none, none, none, none⟩

/-- A `get_moves` client message. -/
def getMovesMsg (f : String) : ClientMessage :=
  ⟨"get_moves", none, some f, none, none, none, none⟩

/-- Game used to refute C1: white (to move, 1200 ms left, clock running since
instant 0) holds a queen; black has a bare king. -/
def gameC1ce : GameState :=
  ⟨⟨boardWQd1, .white⟩, some "w1", some "b1", 1200, 5000, 0, some 0, some .white, none⟩

/-- Registries holding `gameC1ce` under game id `"g"`. -/
def stateC1ce : AppState := ⟨[("g", gameC1ce)], [("g", ["w1", "b1"])], ["w1", "b1"]⟩

/-- Game used to witness the amended C1: both sides reduced to bare kings,
white to move with 1200 ms left and the clock running since instant 0. -/
def gameC1w : GameState :=
  ⟨⟨boardKK, .white⟩, some "w1", some "b1", 1200, 5000, 0, some 0, some .white, none⟩

/-- Registries holding `gameC1w` under game id `"g"`. -/
def stateC1w : AppState := ⟨[("g", gameC1w)], [("g", ["w1", "b1"])], ["w1", "b1"]⟩

/-- The game record stored by a successful `handle_move` (src/main.rs:599-652):
clock debit with flag-fall resolution for the mover (who is the side to move of
the pre-move position), then the unconditional `last_move_time` and
`active_player` refresh. Proven below to be exactly what `handle_move` stores. -/
def movedGameState (now : Nat) (gs : GameState) (newGame : Position) : GameState :=
  let gs1 :=
    match gs.last_move_time with
    | none => { gs with game := newGame }
    | some last_move_time =>
      let elapsed := now - last_move_time
      match gs.game.sideToMove with
      | .white =>
        if gs.white_time_ms > elapsed then
          { gs with
            game := newGame,
            white_time_ms := gs.white_time_ms - elapsed + gs.increment_ms }
        else
          { gs with
            game := newGame, white_time_ms := 0,
            game_result := some (if hasInsufficientMaterial newGame.board
              then .DrawDeclared else .WhiteResigns) }
      | .black =>
        if gs.black_time_ms > elapsed then
          { gs with
            game := newGame,
            black_time_ms := gs.black_time_ms - elapsed + gs.increment_ms }
        else
          { gs with
            game := newGame, black_time_ms := 0,
            game_result := some (if hasInsufficientMaterial newGame.board
              then .DrawDeclared else .BlackResigns) }
  { gs1 with last_move_time := some now, active_player := some newGame.sideToMove }

/-- The `move_made` broadcast payload (src/main.rs:666-680) in terms of the
post-move position and the stored post-move game record. -/
def moveMadeMsgOf (re : RulesEngine) (gid f t : String) (ng : Position)
    (gs2 : GameState) : ServerMessage :=
  ⟨"move_made", some gid, some (re.toText ng), none, none, none, some ⟨f, t⟩,
   some (get_game_status re ng gs2.game_result), some gs2.white_time_ms,
   some gs2.black_time_ms, some gs2.increment_ms, none⟩

/-- A game with both seats taken, used to exercise the `GameFull` path. -/
def gameFull : GameState :=
  ⟨initialPosition, some "w1", some "b1", 900000, 900000, 10000, none, some .white, none⟩

/-- Registries holding `gameFull` under id `"gf"`. -/
def stateFull : AppState := ⟨[("gf", gameFull)], [("gf", ["w1", "b1"])], ["w1", "b1"]⟩

/-- A finished game (`game_result` set), used to exercise the `GameOver` path. -/
def gameOver : GameState :=
  ⟨⟨boardKK, .white⟩, some "w1", some "b1", 1000, 1000, 0, some 0, some .white,
   some .DrawDeclared⟩

/-- Registries holding `gameOver` under id `"g"`. -/
def stateOver : AppState := ⟨[("g", gameOver)], [("g", ["w1", "b1"])], ["w1", "b1"]⟩

/-- White pawn on a7, white king e1, black king h8. -/
def boardPawn7 : Board := fun sq =>
  if sq = 48 then some (.pawn, .white)
  else if sq = 4 then some (.king, .white)
  else if sq = 63 then some (.king, .black)
  else none

/-- A game where white, to move, has a pawn one step from promotion. -/
def gamePawn : GameState :=
  ⟨⟨boardPawn7, .white⟩, some "w1", some "b1", 900000, 900000, 0, some 0, some .white, none⟩

/-- Registries holding `gamePawn` under id `"g"`. -/
def statePawn : AppState := ⟨[("g", gamePawn)], [("g", ["w1", "b1"])], ["w1", "b1"]⟩

/-- Registries where game `"g"` has a single listed connection `"w1"`. -/
def stateSolo : AppState := ⟨[("g", gameC1w)], [("g", ["w1"])], ["w1"]⟩

/-- The machine reached by one `connect` of session `"s1"` followed by its
`create` of game `"g1"` (15+10 defaults). -/
def c2wMachine : Machine :=
  ⟨⟨[("g1", ⟨initialPosition, some "s1", none, 900000, 900000, 10000, none,
            some .white, none⟩)],
    [("g1", ["s1"])], ["s1"]⟩,
   [("s1", ⟨"g1", some .white⟩)]⟩

theorem lookup_removeKey {α : Type} (m : List (String × α)) (k j : String) :
    lookup (removeKey m k) j = if k = j then none else lookup m j := by
  induction m with
  | nil => simp only [removeKey, List.filter_nil, lookup]; split <;> rfl
  | cons p rest ih =>
    simp only [removeKey] at ih ⊢
    by_cases hpk : p.1 = k
    · rw [List.filter_cons_of_neg (by simp [hpk])]
      rw [ih]
      by_cases hkj : k = j
      · simp [hkj]
      · simp only [if_neg hkj]
        cases p with
        | mk a b => simp only [lookup]; rw [if_neg]; intro haj; exact hkj (hpk ▸ haj)
    · rw [List.filter_cons_of_pos (by simp [hpk])]
      cases p with
      | mk a b =>
        simp only [lookup, ih]
        by_cases haj : a = j
        · have : ¬ k = j := fun hkj => hpk (by simp [hkj ▸ haj])
          simp [haj, this]
        · simp [haj]

theorem lookup_insertKey {α : Type} (m : List (String × α)) (k : String) (v : α)
    (j : String) :
    lookup (insertKey m k v) j = if k = j then some v else lookup m j := by
  simp only [insertKey, lookup, lookup_removeKey]
  by_cases h : k = j <;> simp [h]

theorem handle_move_frame {re : RulesEngine} {now : Nat} {w : ChessWebSocket}
    {msg : ClientMessage} {st : AppState} {r : HandlerResult}
    (h : handle_move re now w msg st = some r) :
    r.ws = w ∧ r.state.connections = st.connections ∧ r.state.sessions = st.sessions := by
  unfold handle_move at h
  repeat' first
    | split at h
    | (dsimp only [] at h)
  all_goals first
    | (injection h with h; subst h; exact ⟨rfl, rfl, rfl⟩)
    | exact Option.noConfusion h

theorem handle_get_moves_frame {re : RulesEngine} {w : ChessWebSocket}
    {msg : ClientMessage} {st : AppState} {r : HandlerResult}
    (h : handle_get_moves re w msg st = some r) :
    r.ws = w ∧ r.state = st := by
  unfold handle_get_moves at h
  repeat' first
    | split at h
    | (dsimp only [] at h)
  all_goals first
    | (injection h with h; subst h; exact ⟨rfl, rfl⟩)
    | exact Option.noConfusion h

theorem handle_time_sync_frame (re : RulesEngine) (now : Nat) (w : ChessWebSocket)
    (msg : ClientMessage) (st : AppState) :
    (handle_time_sync re now w msg st).ws = w ∧
    (handle_time_sync re now w msg st).state.connections = st.connections ∧
    (handle_time_sync re now w msg st).state.sessions = st.sessions := by
  unfold handle_time_sync
  repeat' first
    | split
    | (dsimp only [])
  all_goals exact ⟨rfl, rfl, rfl⟩

theorem handle_move_games {re : RulesEngine} {now : Nat} {w : ChessWebSocket}
    {msg : ClientMessage} {st : AppState} {r : HandlerResult}
    (h : handle_move re now w msg st = some r) :
    r.state.games = st.games ∨
    (w.game_id ≠ "" ∧ ∃ gs2, r.state.games = insertKey st.games w.game_id gs2) := by
  unfold handle_move at h
  by_cases hw : w.game_id = ""
  · rw [if_pos hw] at h; injection h with h; subst h; exact .inl rfl
  · rw [if_neg hw] at h
    repeat' first
      | split at h
      | (dsimp only [] at h)
    all_goals first
      | (injection h with h; subst h; exact .inl rfl)
      | (injection h with h; subst h; exact .inr ⟨hw, _, rfl⟩)
      | exact Option.noConfusion h

theorem handle_time_sync_games (re : RulesEngine) (now : Nat) (w : ChessWebSocket)
    (msg : ClientMessage) (st : AppState) :
    (handle_time_sync re now w msg st).state.games = st.games ∨
    ∃ gid gs gs1, lookup st.games gid = some gs ∧
      (handle_time_sync re now w msg st).state.games = insertKey st.games gid gs1 := by
  unfold handle_time_sync
  cases msg.game_id with
  | none => exact .inl rfl
  | some gid =>
    dsimp only []
    cases hg : lookup st.games gid with
    | none => exact .inl rfl
    | some gs => exact .inr ⟨gid, gs, _, hg, rfl⟩

theorem connOf_wsOf (id : String) (c : Conn) : connOf (wsOf id c) = c := rfl

theorem leaveGame_fst (w : ChessWebSocket) (st : AppState) :
    (leaveGame w st).1 = if w.game_id = "" then w else ⟨w.id, "", none⟩ := by
  unfold leaveGame
  by_cases hw : w.game_id = "" <;> simp [hw]

theorem leaveGame_sessions (w : ChessWebSocket) (st : AppState) :
    (leaveGame w st).2.sessions = st.sessions := by
  unfold leaveGame
  by_cases hw : w.game_id = "" <;> simp [hw]

theorem leaveGame_connections (w : ChessWebSocket) (st : AppState) :
    ((leaveGame w st).2.connections = st.connections ∧
      (w.game_id = "" ∨ lookup st.connections w.game_id = none)) ∨
    (w.game_id ≠ "" ∧ ∃ l, lookup st.connections w.game_id = some l ∧
      (leaveGame w st).2.connections =
        insertKey st.connections w.game_id (l.filter (fun i => i ≠ w.id))) := by
  unfold leaveGame
  by_cases hw : w.game_id = ""
  · rw [if_pos hw]; exact .inl ⟨rfl, .inl hw⟩
  · rw [if_neg hw]
    dsimp only []
    cases hcl : lookup st.connections w.game_id with
    | none => exact .inl ⟨rfl, .inr rfl⟩
    | some l => exact .inr ⟨hw, l, rfl, rfl⟩

theorem leaveGame_games (w : ChessWebSocket) (st : AppState) :
    (leaveGame w st).2.games = st.games ∨
    (w.game_id ≠ "" ∧ ∃ gs0 gs, lookup st.games w.game_id = some gs0 ∧
      (leaveGame w st).2.games = insertKey st.games w.game_id gs) := by
  unfold leaveGame
  by_cases hw : w.game_id = ""
  · rw [if_pos hw]; exact .inl rfl
  · rw [if_neg hw]
    dsimp only []
    cases hgl : lookup st.games w.game_id with
    | none => exact .inl rfl
    | some gs => exact .inr ⟨hw, gs, _, rfl, rfl⟩

theorem leaveGame_mem {w : ChessWebSocket} {st : AppState} {x g : String}
    (hx : x ∈ connList (leaveGame w st).2 g) : x ∈ connList st g := by
  rcases leaveGame_connections w st with ⟨h, _⟩ | ⟨_, l, hl, h⟩
  · unfold connList at hx ⊢; rw [h] at hx; exact hx
  · unfold connList at hx ⊢
    rw [h, lookup_insertKey] at hx
    by_cases hg : w.game_id = g
    · rw [if_pos hg] at hx
      subst hg
      rw [hl]
      have hx' : x ∈ l.filter (fun i => i ≠ w.id) := by simpa using hx
      simpa using List.mem_of_mem_filter hx'
    · rw [if_neg hg] at hx; exact hx

theorem leaveGame_not_mem_self {w : ChessWebSocket} {st : AppState}
    (hw : w.game_id ≠ "") : w.id ∉ connList (leaveGame w st).2 w.game_id := by
  rcases leaveGame_connections w st with ⟨h, hcase⟩ | ⟨_, l, hl, h⟩
  · rcases hcase with hc | hc
    · exact absurd hc hw
    · unfold connList; rw [h, hc]; simp
  · unfold connList
    rw [h, lookup_insertKey, if_pos rfl]
    simp

theorem leaveGame_lookup_empty (w : ChessWebSocket) (st : AppState) :
    lookup (leaveGame w st).2.connections "" = lookup st.connections "" ∧
    lookup (leaveGame w st).2.games "" = lookup st.games "" := by
  constructor
  · rcases leaveGame_connections w st with ⟨h, _⟩ | ⟨hw, l, _, h⟩
    · rw [h]
    · rw [h, lookup_insertKey, if_neg hw]
  · rcases leaveGame_games w st with h | ⟨hw, gs0, gs, hl0, h⟩
    · rw [h]
    · rw [h, lookup_insertKey, if_neg hw]

theorem stopping_connections (w : ChessWebSocket) (st : AppState) :
    ((stopping w st).connections = st.connections ∧
      (w.game_id = "" ∨ lookup st.connections w.game_id = none)) ∨
    (w.game_id ≠ "" ∧ (stopping w st).connections = removeKey st.connections w.game_id) ∨
    (w.game_id ≠ "" ∧ ∃ l, lookup st.connections w.game_id = some l ∧
      (stopping w st).connections =
        insertKey st.connections w.game_id (l.filter (fun i => i ≠ w.id))) := by
  unfold stopping
  by_cases hw : w.game_id = ""
  · rw [if_pos hw]; exact .inl ⟨rfl, .inl hw⟩
  · rw [if_neg hw]
    dsimp only []
    cases hcl : lookup st.connections w.game_id with
    | none =>
      refine .inl ⟨?_, .inr rfl⟩
      cases hgl : lookup st.games w.game_id <;> simp
    | some l =>
      dsimp only []
      by_cases hemp : (l.filter (fun i => i ≠ w.id)).isEmpty
      · rw [if_pos hemp]
        dsimp only []
        refine .inr (.inl ⟨hw, ?_⟩)
        cases hgl : lookup (removeKey st.games w.game_id) w.game_id <;> simp
      · rw [if_neg hemp]
        dsimp only []
        refine .inr (.inr ⟨hw, l, rfl, ?_⟩)
        cases hgl : lookup st.games w.game_id <;> simp

theorem stopping_games_empty (w : ChessWebSocket) (st : AppState) :
    lookup (stopping w st).games "" = lookup st.games "" := by
  unfold stopping
  by_cases hw : w.game_id = ""
  · rw [if_pos hw]
  · rw [if_neg hw]
    dsimp only []
    cases hcl : lookup st.connections w.game_id with
    | none =>
      cases hgl : lookup st.games w.game_id with
      | none => simp
      | some gs => simp [lookup_insertKey, hw]
    | some l =>
      dsimp only []
      by_cases hemp : (l.filter (fun i => i ≠ w.id)).isEmpty
      · rw [if_pos hemp]
        dsimp only []
        cases hgl : lookup (removeKey st.games w.game_id) w.game_id with
        | none => simp [lookup_removeKey, hw]
        | some gs => simp [lookup_insertKey, lookup_removeKey, hw]
      · rw [if_neg hemp]
        dsimp only []
        cases hgl : lookup st.games w.game_id with
        | none => simp
        | some gs => simp [lookup_insertKey, hw]

theorem stopping_mem {w : ChessWebSocket} {st : AppState} {x g : String}
    (hx : x ∈ connList (stopping w st) g) : x ∈ connList st g := by
  rcases stopping_connections w st with ⟨h, _⟩ | ⟨hw, h⟩ | ⟨hw, l, hl, h⟩
  · unfold connList at hx ⊢; rw [h] at hx; exact hx
  · unfold connList at hx ⊢
    rw [h, lookup_removeKey] at hx
    by_cases hg : w.game_id = g
    · rw [if_pos hg] at hx; simp at hx
    · rw [if_neg hg] at hx; exact hx
  · unfold connList at hx ⊢
    rw [h, lookup_insertKey] at hx
    by_cases hg : w.game_id = g
    · rw [if_pos hg] at hx
      subst hg
      rw [hl]
      have hx' : x ∈ l.filter (fun i => i ≠ w.id) := by simpa using hx
      simpa using List.mem_of_mem_filter hx'
    · rw [if_neg hg] at hx; exact hx

theorem stopping_not_mem_self {w : ChessWebSocket} {st : AppState}
    (hw : w.game_id ≠ "") : w.id ∉ connList (stopping w st) w.game_id := by
  rcases stopping_connections w st with ⟨h, hcase⟩ | ⟨_, h⟩ | ⟨_, l, hl, h⟩
  · rcases hcase with hc | hc
    · exact absurd hc hw
    · unfold connList; rw [h, hc]; simp
  · unfold connList; rw [h, lookup_removeKey, if_pos rfl]; simp
  · unfold connList
    rw [h, lookup_insertKey, if_pos rfl]
    simp

theorem stopping_connections_empty (w : ChessWebSocket) (st : AppState) :
    lookup (stopping w st).connections "" = lookup st.connections "" := by
  rcases stopping_connections w st with ⟨h, _⟩ | ⟨hw, h⟩ | ⟨hw, l, hl, h⟩
  · rw [h]
  · rw [h, lookup_removeKey, if_neg hw]
  · rw [h, lookup_insertKey, if_neg hw]

theorem handle_create_eq (re : RulesEngine) (gid : String) (w : ChessWebSocket)
    (msg : ClientMessage) (st : AppState) :
    handle_create re gid w msg st =
      some ⟨⟨w.id, gid, some .white⟩,
            ⟨insertKey st.games gid
               ⟨initialPosition, some w.id, none,
                (msg.start_time_minutes.getD 15) * 60 * 1000,
                (msg.start_time_minutes.getD 15) * 60 * 1000,
                (msg.increment_seconds.getD 10) * 1000, none, some .white, none⟩,
             insertKey st.connections gid
               (((lookup st.connections gid).getD []) ++ [w.id]),
             st.sessions⟩,
            [.send ⟨"game_created", some gid, some (re.toText initialPosition),
                    some "white", none, none, none, some "waiting_for_opponent",
                    some ((msg.start_time_minutes.getD 15) * 60 * 1000),
                    some ((msg.start_time_minutes.getD 15) * 60 * 1000),
                    some ((msg.increment_seconds.getD 10) * 1000), none⟩]⟩ := by
  unfold handle_create
  dsimp only []
  rw [show lookup (insertKey st.games gid
        ⟨initialPosition, some w.id, none,
         (msg.start_time_minutes.getD 15) * 60 * 1000,
         (msg.start_time_minutes.getD 15) * 60 * 1000,
         (msg.increment_seconds.getD 10) * 1000, none, some .white, none⟩) gid =
      some ⟨initialPosition, some w.id, none,
         (msg.start_time_minutes.getD 15) * 60 * 1000,
         (msg.start_time_minutes.getD 15) * 60 * 1000,
         (msg.increment_seconds.getD 10) * 1000, none, some .white, none⟩
    from by rw [lookup_insertKey, if_pos rfl]]
  rfl

theorem connList_empty_nil {st : AppState} (h : lookup st.connections "" = none) :
    connList st "" = [] := by
  unfold connList; rw [h]; rfl

theorem inv_mem_game_id {m : Machine}
    (h3 : ∀ i g, i ∈ connList m.app g → ∃ c, lookup m.conns i = some c ∧ c.game_id = g)
    {id : String} {c : Conn} (hc : lookup m.conns id = some c) {g : String}
    (hmem : id ∈ connList m.app g) : c.game_id = g := by
  obtain ⟨c', hc', hg⟩ := h3 id g hmem
  rw [hc] at hc'
  injection hc' with h
  subst h
  exact hg

theorem leave_not_mem {m : Machine}
    (h1 : lookup m.app.connections "" = none)
    (h3 : ∀ i g, i ∈ connList m.app g → ∃ c, lookup m.conns i = some c ∧ c.game_id = g)
    {id : String} {c : Conn} (hc : lookup m.conns id = some c) (g : String) :
    id ∉ connList (leaveGame (wsOf id c) m.app).2 g := by
  intro hmem
  have hmem0 := leaveGame_mem hmem
  have hg : c.game_id = g := inv_mem_game_id h3 hc hmem0
  by_cases hw : c.game_id = ""
  · rw [hw] at hg
    rw [← hg] at hmem0
    rw [connList_empty_nil h1] at hmem0
    simp at hmem0
  · subst hg
    exact leaveGame_not_mem_self (w := wsOf id c) hw hmem

theorem stop_not_mem {m : Machine}
    (h1 : lookup m.app.connections "" = none)
    (h3 : ∀ i g, i ∈ connList m.app g → ∃ c, lookup m.conns i = some c ∧ c.game_id = g)
    {id : String} {c : Conn} (hc : lookup m.conns id = some c) (g : String) :
    id ∉ connList (stopping (wsOf id c) m.app) g := by
  intro hmem
  have hmem0 := stopping_mem hmem
  have hg : c.game_id = g := inv_mem_game_id h3 hc hmem0
  by_cases hw : c.game_id = ""
  · rw [hw] at hg
    rw [← hg] at hmem0
    rw [connList_empty_nil h1] at hmem0
    simp at hmem0
  · subst hg
    exact stopping_not_mem_self (w := wsOf id c) hw hmem

theorem inv_after_joinAs {conns : List (String × Conn)} {st1 : AppState}
    {id gid : String} {slf : ChessWebSocket} {gs : GameState} {col : Color}
    {re : RulesEngine} {now : Nat}
    (hid : slf.id = id)
    (hE1 : lookup st1.connections "" = none)
    (hE2 : lookup st1.games "" = none)
    (hgid : gid ≠ "")
    (hmemP : ∀ i g, i ∈ connList st1 g → i ≠ id →
      ∃ c, lookup conns i = some c ∧ c.game_id = g)
    (hnm : ∀ g, id ∉ connList st1 g) :
    lookup (joinAs re now slf st1 gid gs col).state.connections "" = none ∧
    lookup (joinAs re now slf st1 gid gs col).state.games "" = none ∧
    ∀ i g, i ∈ connList (joinAs re now slf st1 gid gs col).state g →
      ∃ c, lookup (insertKey conns id (connOf (joinAs re now slf st1 gid gs col).ws)) i
             = some c ∧ c.game_id = g := by
  unfold joinAs
  dsimp only []
  rw [hid]
  cases hcl : lookup st1.connections gid with
  | none =>
    refine ⟨?_, ?_, ?_⟩
    · rw [lookup_insertKey, if_neg hgid]; exact hE1
    · rw [lookup_insertKey, if_neg hgid]; exact hE2
    · intro i g hmem
      unfold connList at hmem
      rw [lookup_insertKey] at hmem
      by_cases hgg : gid = g
      · rw [if_pos hgg] at hmem
        have : i = id := by simpa using hmem
        subst this
        refine ⟨⟨gid, some col⟩, ?_, hgg⟩
        rw [lookup_insertKey, if_pos rfl]
        rfl
      · rw [if_neg hgg] at hmem
        by_cases hii : i = id
        · subst hii; exact absurd hmem (hnm g)
        · obtain ⟨c', hc', hg⟩ := hmemP i g hmem hii
          refine ⟨c', ?_, hg⟩
          rw [lookup_insertKey, if_neg (fun h => hii h.symm)]
          exact hc'
  | some l =>
    have hidl : id ∉ l := by
      intro hmem
      exact hnm gid (by unfold connList; rw [hcl]; exact hmem)
    dsimp only []
    rw [if_neg hidl]
    refine ⟨?_, ?_, ?_⟩
    · rw [lookup_insertKey, if_neg hgid]; exact hE1
    · rw [lookup_insertKey, if_neg hgid]; exact hE2
    · intro i g hmem
      unfold connList at hmem
      rw [lookup_insertKey] at hmem
      by_cases hgg : gid = g
      · rw [if_pos hgg] at hmem
        have hmem' : i ∈ l ++ [id] := by simpa using hmem
        rcases List.mem_append.mp hmem' with hin | hin
        · have hii : i ≠ id := fun h => hidl (h ▸ hin)
          have hmemc : i ∈ connList st1 g := by
            unfold connList; rw [← hgg, hcl]; exact hin
          obtain ⟨c', hc', hg⟩ := hmemP i g hmemc hii
          refine ⟨c', ?_, hg⟩
          rw [lookup_insertKey, if_neg (fun h => hii h.symm)]
          exact hc'
        · have : i = id := by simpa using hin
          subst this
          refine ⟨⟨gid, some col⟩, ?_, hgg⟩
          rw [lookup_insertKey, if_pos rfl]
          rfl
      · rw [if_neg hgg] at hmem
        by_cases hii : i = id
        · subst hii; exact absurd hmem (hnm g)
        · obtain ⟨c', hc', hg⟩ := hmemP i g hmem hii
          refine ⟨c', ?_, hg⟩
          rw [lookup_insertKey, if_neg (fun h => hii h.symm)]
          exact hc'

theorem step_preserves_inv {m m' : Machine} (hs : Step m m') (hI : Inv m) : Inv m' := by
  obtain ⟨h1, h2, h3⟩ := hI
  cases hs with
  | connect id hid =>
    refine ⟨h1, h2, ?_⟩
    intro i g hmem
    obtain ⟨c', hc', hg⟩ := h3 i g hmem
    refine ⟨c', ?_, hg⟩
    rw [lookup_insertKey]
    by_cases hii : id = i
    · subst hii; rw [hid] at hc'; exact absurd hc' (by simp)
    · rw [if_neg hii]; exact hc'
  | createStep re id gid c msg r hc hcg hgid hr =>
    rw [handle_create_eq] at hr
    injection hr with hr
    subst hr
    refine ⟨?_, ?_, ?_⟩
    · dsimp only []
      rw [lookup_insertKey, if_neg hgid]
      exact h1
    · dsimp only []
      rw [lookup_insertKey, if_neg hgid]
      exact h2
    · intro i g hmem
      unfold connList at hmem
      dsimp only [] at hmem
      rw [lookup_insertKey] at hmem
      by_cases hgg : gid = g
      · rw [if_pos hgg] at hmem
        have hmem' : i ∈ (lookup m.app.connections gid).getD [] ++ [(wsOf id c).id] := by
          simpa using hmem
        rcases List.mem_append.mp hmem' with hin | hin
        · have hmemc : i ∈ connList m.app gid := hin
          obtain ⟨c', hc', hg⟩ := h3 i gid hmemc
          by_cases hii : id = i
          · exfalso
            subst hii
            rw [hc] at hc'
            injection hc' with he
            subst he
            exact hgid (by rw [← hg, hcg])
          · refine ⟨c', ?_, hgg ▸ hg⟩
            rw [lookup_insertKey, if_neg hii]
            exact hc'
        · have : i = id := by simpa using hin
          subst this
          refine ⟨⟨gid, some Color.white⟩, ?_, hgg⟩
          rw [lookup_insertKey, if_pos rfl]
          rfl
      · rw [if_neg hgg] at hmem
        have hmemc : i ∈ connList m.app g := hmem
        obtain ⟨c', hc', hg⟩ := h3 i g hmemc
        by_cases hii : id = i
        · exfalso
          subst hii
          rw [hc] at hc'
          injection hc' with he
          subst he
          have hge : g = "" := by rw [← hg, hcg]
          subst hge
          rw [connList_empty_nil h1] at hmemc
          simp at hmemc
        · refine ⟨c', ?_, hg⟩
          rw [lookup_insertKey, if_neg hii]
          exact hc'
  | joinStep re now id c msg hc =>
    have hE := leaveGame_lookup_empty (wsOf id c) m.app
    have hnm := leave_not_mem h1 h3 hc
    have hmemP : ∀ i g, i ∈ connList (leaveGame (wsOf id c) m.app).2 g → i ≠ id →
        ∃ c', lookup m.conns i = some c' ∧ c'.game_id = g := by
      intro i g hmem _
      exact h3 i g (leaveGame_mem hmem)
    have hfst : ((leaveGame (wsOf id c) m.app).1).id = id := by
      rw [leaveGame_fst]
      by_cases hw : c.game_id = "" <;> simp [hw, wsOf]
    unfold handle_join
    cases hmg : msg.game_id with
    | none =>
      refine ⟨h1, h2, ?_⟩
      intro i g hmem
      obtain ⟨c', hc', hg⟩ := h3 i g hmem
      by_cases hii : id = i
      · subst hii
        rw [hc] at hc'
        injection hc' with he
        subst he
        exact ⟨c, by rw [lookup_insertKey, if_pos rfl]; rfl, hg⟩
      · exact ⟨c', by rw [lookup_insertKey, if_neg hii]; exact hc', hg⟩
    | some gid =>
      dsimp only []
      cases hgs : lookup (leaveGame (wsOf id c) m.app).2.games gid with
      | none =>
        refine ⟨hE.1 ▸ h1, hE.2 ▸ h2, ?_⟩
        intro i g hmem
        by_cases hii : i = id
        · subst hii; exact absurd hmem (hnm g)
        · obtain ⟨c', hc', hg⟩ := hmemP i g hmem hii
          refine ⟨c', ?_, hg⟩
          rw [lookup_insertKey, if_neg (fun h => hii h.symm)]
          exact hc'
      | some gs =>
        have hgid : gid ≠ "" := by
          intro hg0
          rw [hg0, hE.2, h2] at hgs
          exact Option.noConfusion hgs
        dsimp only []
        by_cases hwp : gs.white_player = none
        · rw [if_pos hwp]
          exact inv_after_joinAs hfst (hE.1 ▸ h1) (hE.2 ▸ h2) hgid hmemP hnm
        · rw [if_neg hwp]
          by_cases hbp : gs.black_player = none
          · rw [if_pos hbp]
            exact inv_after_joinAs hfst (hE.1 ▸ h1) (hE.2 ▸ h2) hgid hmemP hnm
          · rw [if_neg hbp]
            refine ⟨hE.1 ▸ h1, hE.2 ▸ h2, ?_⟩
            intro i g hmem
            by_cases hii : i = id
            · subst hii; exact absurd hmem (hnm g)
            · obtain ⟨c', hc', hg⟩ := hmemP i g hmem hii
              refine ⟨c', ?_, hg⟩
              rw [lookup_insertKey, if_neg (fun h => hii h.symm)]
              exact hc'
  | moveStep re now id c msg r hc hr =>
    obtain ⟨hws, hconn, _⟩ := handle_move_frame hr
    refine ⟨by rw [hconn]; exact h1, ?_, ?_⟩
    · rcases handle_move_games hr with hg | ⟨hne, gs2, hg⟩
      · rw [hg]; exact h2
      · rw [hg, lookup_insertKey, if_neg hne]; exact h2
    · intro i g hmem
      have hmemc : i ∈ connList m.app g := by
        unfold connList at hmem ⊢
        rw [hconn] at hmem
        exact hmem
      obtain ⟨c', hc', hg⟩ := h3 i g hmemc
      rw [hws] at *
      by_cases hii : id = i
      · subst hii
        rw [hc] at hc'
        injection hc' with he
        subst he
        exact ⟨c, by rw [lookup_insertKey, if_pos rfl]; rfl, hg⟩
      · exact ⟨c', by rw [lookup_insertKey, if_neg hii]; exact hc', hg⟩
  | getMovesStep re id c msg r hc hr =>
    obtain ⟨hws, hst⟩ := handle_get_moves_frame hr
    rw [hws, hst]
    refine ⟨h1, h2, ?_⟩
    intro i g hmem
    obtain ⟨c', hc', hg⟩ := h3 i g hmem
    by_cases hii : id = i
    · subst hii
      rw [hc] at hc'
      injection hc' with he
      subst he
      exact ⟨c, by rw [lookup_insertKey, if_pos rfl]; rfl, hg⟩
    · exact ⟨c', by rw [lookup_insertKey, if_neg hii]; exact hc', hg⟩
  | timeSyncStep re now id c msg hc =>
    obtain ⟨hws, hconn, _⟩ := handle_time_sync_frame re now (wsOf id c) msg m.app
    refine ⟨by rw [hconn]; exact h1, ?_, ?_⟩
    · rcases handle_time_sync_games re now (wsOf id c) msg m.app with hg | ⟨gid, gs, gs1, hl, hg⟩
      · rw [hg]; exact h2
      · have hne : gid ≠ "" := by
          intro h0
          rw [h0, h2] at hl
          exact Option.noConfusion hl
        rw [hg, lookup_insertKey, if_neg hne]; exact h2
    · intro i g hmem
      have hmemc : i ∈ connList m.app g := by
        unfold connList at hmem ⊢
        rw [hconn] at hmem
        exact hmem
      obtain ⟨c', hc', hg⟩ := h3 i g hmemc
      rw [hws] at *
      by_cases hii : id = i
      · subst hii
        rw [hc] at hc'
        injection hc' with he
        subst he
        exact ⟨c, by rw [lookup_insertKey, if_pos rfl]; rfl, hg⟩
      · exact ⟨c', by rw [lookup_insertKey, if_neg hii]; exact hc', hg⟩
  | disconnectStep id c hc =>
    refine ⟨stopping_connections_empty (wsOf id c) m.app ▸ h1,
           stopping_games_empty (wsOf id c) m.app ▸ h2, ?_⟩
    intro i g hmem
    by_cases hii : i = id
    · subst hii; exact absurd hmem (stop_not_mem h1 h3 hc g)
    · obtain ⟨c', hc', hg⟩ := h3 i g (stopping_mem hmem)
      refine ⟨c', ?_, hg⟩
      rw [lookup_removeKey, if_neg (fun h => hii h.symm)]
      exact hc'

theorem handle_move_success {re : RulesEngine} {now : Nat} {w : ChessWebSocket}
    {msg : ClientMessage} {st : AppState} {gs : GameState} {fs ts : Nat}
    {pc : Piece × Color} {b2 : Board}
    (hw : w.game_id ≠ "")
    (hfrom : msg.move_from.getD "" ≠ "") (hto : msg.move_to.getD "" ≠ "")
    (hg : lookup st.games w.game_id = some gs)
    (hres : gs.game_result = none)
    (hseat : seatColor gs w.id = some gs.game.sideToMove)
    (hsq1 : squareFromStr (msg.move_from.getD "") = some fs)
    (hsq2 : squareFromStr (msg.move_to.getD "") = some ts)
    (hpiece : gs.game.board fs = some pc)
    (happly : re.applyMove gs.game ⟨fs, ts, none⟩ = some b2) :
    handle_move re now w msg st =
      some ⟨w, ⟨insertKey st.games w.game_id
                  (movedGameState now gs ⟨b2, gs.game.sideToMove.other⟩),
                st.connections, st.sessions⟩,
            [.broadcastMsg w.game_id
               (moveMadeMsgOf re w.game_id (msg.move_from.getD "") (msg.move_to.getD "")
                 ⟨b2, gs.game.sideToMove.other⟩
                 (movedGameState now gs ⟨b2, gs.game.sideToMove.other⟩))]⟩ := by
  unfold handle_move
  rw [if_neg hw]
  dsimp only []
  rw [if_neg (show ¬(msg.move_from.getD "" = "" ∨ msg.move_to.getD "" = "")
        from fun h => h.elim hfrom hto)]
  rw [hg]
  dsimp only []
  rw [if_neg (show ¬(gs.game_result.isSome = true) from by rw [hres]; simp)]
  rw [if_neg (show ¬(seatColor gs w.id ≠ some gs.game.sideToMove)
        from fun h => h hseat)]
  rw [hsq1]
  dsimp only []
  rw [hsq2]
  dsimp only []
  rw [hpiece]
  dsimp only []
  rw [show makeMove re gs.game ⟨fs, ts, none⟩ =
        some ⟨b2, gs.game.sideToMove.other⟩ from by
    unfold makeMove; rw [happly]; rfl]
  try dsimp only []
  unfold movedGameState moveMadeMsgOf
  cases hl : gs.last_move_time with
  | none => rfl
  | some lmt =>
    dsimp only []
    rw [hseat]
    cases hstm : gs.game.sideToMove <;> (dsimp only []; try rfl)

theorem handle_move_rejected {re : RulesEngine} {now : Nat} {w : ChessWebSocket}
    {msg : ClientMessage} {st : AppState} {gs : GameState} {fs ts : Nat}
    {pc : Piece × Color}
    (hw : w.game_id ≠ "")
    (hfrom : msg.move_from.getD "" ≠ "") (hto : msg.move_to.getD "" ≠ "")
    (hg : lookup st.games w.game_id = some gs)
    (hres : gs.game_result = none)
    (hseat : seatColor gs w.id = some gs.game.sideToMove)
    (hsq1 : squareFromStr (msg.move_from.getD "") = some fs)
    (hsq2 : squareFromStr (msg.move_to.getD "") = some ts)
    (hpiece : gs.game.board fs = some pc)
    (happly : re.applyMove gs.game ⟨fs, ts, none⟩ = none) :
    handle_move re now w msg st =
      some ⟨w, st, [.send (errorMsg (some w.game_id) "Invalid move")]⟩ := by
  unfold handle_move
  rw [if_neg hw]
  dsimp only []
  rw [if_neg (show ¬(msg.move_from.getD "" = "" ∨ msg.move_to.getD "" = "")
        from fun h => h.elim hfrom hto)]
  rw [hg]
  dsimp only []
  rw [if_neg (show ¬(gs.game_result.isSome = true) from by rw [hres]; simp)]
  rw [if_neg (show ¬(seatColor gs w.id ≠ some gs.game.sideToMove)
        from fun h => h hseat)]
  rw [hsq1]
  dsimp only []
  rw [hsq2]
  dsimp only []
  rw [hpiece]
  dsimp only []
  rw [show makeMove re gs.game ⟨fs, ts, none⟩ = none from by
    unfold makeMove; rw [happly]; rfl]
  try rfl

theorem movedGameState_game (now : Nat) (gs : GameState) (ng : Position) :
    (movedGameState now gs ng).game = ng := by
  unfold movedGameState
  repeat' first
    | split
    | (dsimp only [])

theorem movedGameState_last (now : Nat) (gs : GameState) (ng : Position) :
    (movedGameState now gs ng).last_move_time = some now := rfl

theorem movedGameState_white (now : Nat) (gs : GameState) (ng : Position)
    (h : gs.game.sideToMove = Color.white) :
    (movedGameState now gs ng).black_time_ms = gs.black_time_ms ∧
    (movedGameState now gs ng).white_time_ms =
      (match gs.last_move_time with
       | none => gs.white_time_ms
       | some lmt => if gs.white_time_ms > now - lmt
                     then gs.white_time_ms - (now - lmt) + gs.increment_ms
                     else 0) := by
  unfold movedGameState
  cases hl : gs.last_move_time with
  | none => exact ⟨rfl, rfl⟩
  | some lmt =>
    dsimp only []
    rw [h]
    dsimp only []
    by_cases hgt : gs.white_time_ms > now - lmt
    · simp [if_pos hgt]
    · simp [if_neg hgt]

theorem movedGameState_black (now : Nat) (gs : GameState) (ng : Position)
    (h : gs.game.sideToMove = Color.black) :
    (movedGameState now gs ng).white_time_ms = gs.white_time_ms ∧
    (movedGameState now gs ng).black_time_ms =
      (match gs.last_move_time with
       | none => gs.black_time_ms
       | some lmt => if gs.black_time_ms > now - lmt
                     then gs.black_time_ms - (now - lmt) + gs.increment_ms
                     else 0) := by
  unfold movedGameState
  cases hl : gs.last_move_time with
  | none => exact ⟨rfl, rfl⟩
  | some lmt =>
    dsimp only []
    rw [h]
    dsimp only []
    by_cases hgt : gs.black_time_ms > now - lmt
    · simp [if_pos hgt]
    · simp [if_neg hgt]

theorem movedGameState_flag (now : Nat) (gs : GameState) (ng : Position) (lmt : Nat)
    (hl : gs.last_move_time = some lmt)
    (hflag : ¬ ((if gs.game.sideToMove = Color.white then gs.white_time_ms
                 else gs.black_time_ms) > now - lmt)) :
    (movedGameState now gs ng).game_result =
      some (if hasInsufficientMaterial ng.board then .DrawDeclared
            else if gs.game.sideToMove = Color.white then .WhiteResigns
            else .BlackResigns) ∧
    (if gs.game.sideToMove = Color.white then (movedGameState now gs ng).white_time_ms
     else (movedGameState now gs ng).black_time_ms) = 0 := by
  unfold movedGameState
  rw [hl]
  dsimp only []
  cases hstm : gs.game.sideToMove with
  | white =>
    have hflag2 : ¬ (gs.white_time_ms > now - lmt) := by
      intro hgt
      exact hflag (by rw [hstm]; simpa using hgt)
    simp [if_neg hflag2]
  | black =>
    have hflag2 : ¬ (gs.black_time_ms > now - lmt) := by
      intro hgt
      refine hflag ?_
      rw [hstm]
      simpa using hgt
    simp [if_neg hflag2]

theorem reachable_inv {m : Machine} (hm : Reachable m) : Inv m := by
  induction hm with
  | refl =>
    refine ⟨rfl, rfl, ?_⟩
    intro i g hmem
    simp [connList, lookup, initMachine] at hmem
  | tail _ hstep ih => exact step_preserves_inv hstep ih

/-- Claim C2 (amended): for every state reachable through connects, joins,
moves, get_moves, time_syncs, disconnects, and creates issued by sessions not
currently attached to a game, a session id appears in the connection list of
at most one game id; a join by an attached session removes it from the old
game's list before adding it to the new one. (`handle_create` performs no such
removal, so a create issued while attached puts the session in two lists —
refuted concretely by the counterexample theorem.) -/
theorem c2_session_in_at_most_one_connection_list {m : Machine} (hm : Reachable m)
    {id g1 g2 : String} (hm1 : id ∈ connList m.app g1) (hm2 : id ∈ connList m.app g2) :
    g1 = g2 := by
  obtain ⟨_, _, h3⟩ := reachable_inv hm
  obtain ⟨c1, hc1, hg1⟩ := h3 id g1 hm1
  obtain ⟨c2, hc2, hg2⟩ := h3 id g2 hm2
  rw [hc1] at hc2
  injection hc2 with he
  rw [← hg1, ← hg2, he]

theorem c2wMachine_reachable : Reachable c2wMachine := by
  have hs1 : Step initMachine ⟨⟨[], [], ["s1"]⟩, [("s1", ⟨"", none⟩)]⟩ :=
    Step.connect initMachine "s1" rfl
  have hs2 : Step ⟨⟨[], [], ["s1"]⟩, [("s1", ⟨"", none⟩)]⟩ c2wMachine :=
    Step.createStep ⟨⟨[], [], ["s1"]⟩, [("s1", ⟨"", none⟩)]⟩ stubEngine "s1" "g1"
      ⟨"", none⟩ createMsg _ rfl rfl (by decide)
      (handle_create_eq stubEngine "g1" (wsOf "s1" ⟨"", none⟩) createMsg ⟨[], [], ["s1"]⟩)
  exact Relation.ReflTransGen.tail (Relation.ReflTransGen.tail .refl hs1) hs2

/-- Witness for the amended C2: a concrete reachable state (one connect, one
create) whose only listed session sits in exactly one game's list. -/
theorem c2_session_exclusivity_witness :
    Reachable c2wMachine ∧ "s1" ∈ connList c2wMachine.app "g1" ∧ ("g1" : String) = "g1" :=
  ⟨c2wMachine_reachable, by decide,
   @c2_session_in_at_most_one_connection_list c2wMachine c2wMachine_reachable
     "s1" "g1" "g1" (by decide) (by decide)⟩

/-- Claim C2 is false as stated: a session already attached to game `"g1"`
that issues a second `create` is never removed from `"g1"`'s connection list
(src/main.rs:237-303 contains no leave sequence), so after the second create
the session id `"s1"` stands in the connection lists of both `"g1"` and
`"g2"`. -/
theorem c2_counterexample :
    ((handle_create stubEngine "g1" ⟨"s1", "", none⟩ createMsg ⟨[], [], ["s1"]⟩).bind
      (fun r1 => (handle_create stubEngine "g2" r1.ws createMsg r1.state).map
        (fun r2 => ((connList r2.state "g1").contains "s1",
                    (connList r2.state "g2").contains "s1"))))
      = some (true, true) ∧ ("g1" : String) ≠ "g2" := by
  constructor
  · rfl
  · decide

/-- Claim C1 (amended): for every accepted move on which the mover's clock
flags (elapsed time since `last_tick` at least the mover's remaining
milliseconds), the mover's clock is clamped to zero and the result is recorded
as a draw exactly when `has_insufficient_material` holds of the whole post-move
position — one side reduced to a bare king and the other holding at most a
single minor piece; otherwise the flagged player's opponent is recorded as the
winner. The flagged player's own material therefore matters: an opponent with
a bare king yields a draw only when the flagged side is similarly reduced,
while a flagged side still holding a queen against a bare king loses on time
(see the counterexample theorem). -/
theorem c1_flag_fall_result {re : RulesEngine} {now : Nat} {w : ChessWebSocket}
    {msg : ClientMessage} {st : AppState} {gs : GameState} {fs ts : Nat}
    {pc : Piece × Color} {b2 : Board} {lmt : Nat}
    (hw : w.game_id ≠ "")
    (hfrom : msg.move_from.getD "" ≠ "") (hto : msg.move_to.getD "" ≠ "")
    (hg : lookup st.games w.game_id = some gs)
    (hres : gs.game_result = none)
    (hseat : seatColor gs w.id = some gs.game.sideToMove)
    (hsq1 : squareFromStr (msg.move_from.getD "") = some fs)
    (hsq2 : squareFromStr (msg.move_to.getD "") = some ts)
    (hpiece : gs.game.board fs = some pc)
    (happly : re.applyMove gs.game ⟨fs, ts, none⟩ = some b2)
    (hlmt : gs.last_move_time = some lmt)
    (hflag : ¬ ((if gs.game.sideToMove = Color.white then gs.white_time_ms
                 else gs.black_time_ms) > now - lmt)) :
    ∃ r, handle_move re now w msg st = some r ∧
      ∃ gs2, lookup r.state.games w.game_id = some gs2 ∧
        gs2.game_result =
          some (if hasInsufficientMaterial b2 then GameResult.DrawDeclared
                else if gs.game.sideToMove = Color.white then GameResult.WhiteResigns
                else GameResult.BlackResigns) ∧
        (if gs.game.sideToMove = Color.white then gs2.white_time_ms
         else gs2.black_time_ms) = 0 := by
  refine ⟨_, handle_move_success hw hfrom hto hg hres hseat hsq1 hsq2 hpiece happly, ?_⟩
  refine ⟨movedGameState now gs ⟨b2, gs.game.sideToMove.other⟩, ?_, ?_, ?_⟩
  · dsimp only []
    rw [lookup_insertKey, if_pos rfl]
  · exact (movedGameState_flag now gs ⟨b2, gs.game.sideToMove.other⟩ lmt hlmt hflag).1
  · exact (movedGameState_flag now gs ⟨b2, gs.game.sideToMove.other⟩ lmt hlmt hflag).2

/-- Witness for the amended C1: both sides reduced to bare kings, white flags
(1200 ms left, 1300 ms elapsed) while making a legal king move — the recorded
result is the draw branch of the amended statement. -/
theorem c1_flag_fall_witness :
    ∃ r, handle_move (engineWithMove 4 12 boardKK2) 1300 ⟨"w1", "g", some Color.white⟩
        (moveMsg "e1" "e2") stateC1w = some r ∧
      ∃ gs2, lookup r.state.games "g" = some gs2 ∧
        gs2.game_result =
          some (if hasInsufficientMaterial boardKK2 then GameResult.DrawDeclared
                else if gameC1w.game.sideToMove = Color.white then GameResult.WhiteResigns
                else GameResult.BlackResigns) ∧
        (if gameC1w.game.sideToMove = Color.white then gs2.white_time_ms
         else gs2.black_time_ms) = 0 :=
  @c1_flag_fall_result (engineWithMove 4 12 boardKK2) 1300
    ⟨"w1", "g", some Color.white⟩ (moveMsg "e1" "e2") stateC1w gameC1w 4 12
    (Piece.king, Color.white) boardKK2 0
    (by decide) (by decide) (by decide) rfl rfl rfl rfl rfl rfl rfl rfl (by decide)

/-- Claim C1 is false as stated: white flags at 1200 ms remaining with 1300 ms
elapsed while holding a queen against a bare black king. The opponent (black,
all non-king counts zero) can never deliver checkmate, yet the code records
`WhiteResigns` (reported `black_wins`), not a draw — because
`has_insufficient_material` inspects both sides of the position, not just the
opponent. -/
theorem c1_counterexample :
    ((handle_move (engineWithMove 3 11 boardWQd2) 1300 ⟨"w1", "g", some Color.white⟩
        (moveMsg "d1" "d2") stateC1ce).bind
      (fun r => (lookup r.state.games "g").map
        (fun gs => (gs.game_result, get_game_status stubEngine gs.game gs.game_result))))
      = some (some GameResult.WhiteResigns, "black_wins") ∧
    (countMaterial boardWQd2).black_pawns = 0 ∧
    (countMaterial boardWQd2).black_knights = 0 ∧
    (countMaterial boardWQd2).black_bishops = 0 ∧
    (countMaterial boardWQd2).black_rooks = 0 ∧
    (countMaterial boardWQd2).black_queens = 0 ∧
    (countMaterial boardWQd2).white_queens = 1 := by
  exact ⟨rfl, rfl, rfl, rfl, rfl, rfl, rfl⟩

/-- Claim C3 (code bug): a `get_moves` request whose non-empty origin square
text is unparseable does not produce an error reply — the handler calls
`Square::from_str(...).unwrap()` (src/main.rs:783) and panics, modelled here
by the `none` outcome; `handle_move` has the same `unwrap` at
src/main.rs:590-591. -/
theorem c3_unparseable_square_panics :
    squareFromStr "zz" = none ∧
    handle_get_moves stubEngine ⟨"w1", "g", some Color.white⟩ (getMovesMsg "zz")
      stateC1ce = none :=
  ⟨rfl, rfl⟩

/-- Claim C4: a join naming an existing game seats the joiner as white when the
white seat is empty, else as black when the black seat is empty, and otherwise
fails with the game-full error while leaving the registries (including the
target game's connection list) and the joiner's seat untouched. -/
theorem c4_join_seat_policy {re : RulesEngine} {now : Nat} {w : ChessWebSocket}
    {msg : ClientMessage} {st : AppState} {gid : String} {gs : GameState}
    (hwid : w.game_id = "")
    (hmsg : msg.game_id = some gid)
    (hg : lookup st.games gid = some gs) :
    (gs.white_player = none →
      (handle_join re now w msg st).ws = ⟨w.id, gid, some Color.white⟩ ∧
      (lookup (handle_join re now w msg st).state.games gid).map
        (fun x => x.white_player) = some (some w.id)) ∧
    (gs.white_player ≠ none → gs.black_player = none →
      (handle_join re now w msg st).ws = ⟨w.id, gid, some Color.black⟩ ∧
      (lookup (handle_join re now w msg st).state.games gid).map
        (fun x => x.black_player) = some (some w.id)) ∧
    (gs.white_player ≠ none → gs.black_player ≠ none →
      handle_join re now w msg st =
        ⟨w, st, [.send (errorMsg (some gid) "Game is full")]⟩) := by
  unfold handle_join
  rw [hmsg]
  dsimp only []
  rw [show leaveGame w st = (w, st) from by unfold leaveGame; rw [if_pos hwid]]
  dsimp only []
  rw [hg]
  dsimp only []
  refine ⟨?_, ?_, ?_⟩
  · intro hwp
    rw [if_pos hwp]
    unfold joinAs
    dsimp only []
    refine ⟨rfl, ?_⟩
    rw [lookup_insertKey, if_pos rfl]
    split <;> rfl
  · intro hwp hbp
    rw [if_neg hwp, if_pos hbp]
    unfold joinAs
    dsimp only []
    refine ⟨rfl, ?_⟩
    rw [lookup_insertKey, if_pos rfl]
    split <;> rfl
  · intro hwp hbp
    rw [if_neg hwp, if_neg hbp]

/-- Witness for C4 at the game-full branch: joining a game with both seats
taken returns only the game-full error and changes nothing. -/
theorem c4_join_seat_policy_witness :
    lookup stateFull.games "gf" = some gameFull ∧
    handle_join stubEngine 0 ⟨"s9", "", none⟩ (joinMsg "gf") stateFull =
      ⟨⟨"s9", "", none⟩, stateFull, [.send (errorMsg (some "gf") "Game is full")]⟩ :=
  ⟨rfl, (@c4_join_seat_policy stubEngine 0 ⟨"s9", "", none⟩ (joinMsg "gf") stateFull
      "gf" gameFull rfl rfl rfl).2.2 (by decide) (by decide)⟩

/-- Claim C5: once `game_result` is set, a move request for that game (from an
attached session, with non-empty origin/destination fields — the validation
layers the spec puts before this check) fails with the game-over error sent
only to the requester, and the registries are returned unchanged. -/
theorem c5_game_over_blocks_moves {re : RulesEngine} {now : Nat} {w : ChessWebSocket}
    {msg : ClientMessage} {st : AppState} {gs : GameState} {res : GameResult}
    (hw : w.game_id ≠ "")
    (hfrom : msg.move_from.getD "" ≠ "") (hto : msg.move_to.getD "" ≠ "")
    (hg : lookup st.games w.game_id = some gs)
    (hres : gs.game_result = some res) :
    handle_move re now w msg st =
      some ⟨w, st, [.send (errorMsg (some w.game_id) "Game has already ended")]⟩ := by
  unfold handle_move
  rw [if_neg hw]
  dsimp only []
  rw [if_neg (show ¬(msg.move_from.getD "" = "" ∨ msg.move_to.getD "" = "")
        from fun h => h.elim hfrom hto)]
  rw [hg]
  dsimp only []
  rw [if_pos (show gs.game_result.isSome = true from by rw [hres]; rfl)]

/-- Witness for C5: a move in a drawn game is answered with exactly the
game-over error and the state comes back untouched. -/
theorem c5_game_over_witness :
    gameOver.game_result = some GameResult.DrawDeclared ∧
    handle_move stubEngine 0 ⟨"w1", "g", some Color.white⟩ (moveMsg "e1" "e2") stateOver =
      some ⟨⟨"w1", "g", some Color.white⟩, stateOver,
            [.send (errorMsg (some "g") "Game has already ended")]⟩ :=
  ⟨rfl, c5_game_over_blocks_moves (by decide) (by decide) (by decide) rfl rfl⟩

/-- Claim C6: a move from a session whose seat color does not match the side
to move (spectators and unseated sessions included, whose seat color is
`none`) is answered with only the not-your-turn error and the registries —
position, both clocks, `last_move_time`, turn, result — are returned
unchanged. -/
theorem c6_not_your_turn_unchanged {re : RulesEngine} {now : Nat} {w : ChessWebSocket}
    {msg : ClientMessage} {st : AppState} {gs : GameState}
    (hw : w.game_id ≠ "")
    (hfrom : msg.move_from.getD "" ≠ "") (hto : msg.move_to.getD "" ≠ "")
    (hg : lookup st.games w.game_id = some gs)
    (hres : gs.game_result = none)
    (hturn : seatColor gs w.id ≠ some gs.game.sideToMove) :
    handle_move re now w msg st =
      some ⟨w, st, [.send (errorMsg (some w.game_id) "It\x27s not your turn")]⟩ := by
  unfold handle_move
  rw [if_neg hw]
  dsimp only []
  rw [if_neg (show ¬(msg.move_from.getD "" = "" ∨ msg.move_to.getD "" = "")
        from fun h => h.elim hfrom hto)]
  rw [hg]
  dsimp only []
  rw [if_neg (show ¬(gs.game_result.isSome = true) from by rw [hres]; simp)]
  rw [if_pos hturn]

/-- Witness for C6: black attempts to move while it is white's turn and gets
exactly the not-your-turn error with the state unchanged. -/
theorem c6_not_your_turn_witness :
    seatColor gameC1ce "b1" = some Color.black ∧
    gameC1ce.game.sideToMove = Color.white ∧
    handle_move stubEngine 0 ⟨"b1", "g", some Color.black⟩ (moveMsg "e8" "e7") stateC1ce =
      some ⟨⟨"b1", "g", some Color.black⟩, stateC1ce,
            [.send (errorMsg (some "g") "It\x27s not your turn")]⟩ :=
  ⟨rfl, rfl,
   c6_not_your_turn_unchanged (by decide) (by decide) (by decide) rfl rfl (by decide)⟩

/-- Claim C7: every accepted legal move flips the side to move to the other
color, never leaves the mover's clock below zero (on flag-fall it is clamped
to exactly zero, otherwise it is the debited value plus increment), leaves the
opponent's clock untouched, and sets `last_move_time` to the current instant
unconditionally, flag-fall included. -/
theorem c7_move_flips_turn_and_clocks {re : RulesEngine} {now : Nat}
    {w : ChessWebSocket} {msg : ClientMessage} {st : AppState} {gs : GameState}
    {fs ts : Nat} {pc : Piece × Color} {b2 : Board}
    (hw : w.game_id ≠ "")
    (hfrom : msg.move_from.getD "" ≠ "") (hto : msg.move_to.getD "" ≠ "")
    (hg : lookup st.games w.game_id = some gs)
    (hres : gs.game_result = none)
    (hseat : seatColor gs w.id = some gs.game.sideToMove)
    (hsq1 : squareFromStr (msg.move_from.getD "") = some fs)
    (hsq2 : squareFromStr (msg.move_to.getD "") = some ts)
    (hpiece : gs.game.board fs = some pc)
    (happly : re.applyMove gs.game ⟨fs, ts, none⟩ = some b2) :
    ∃ r, handle_move re now w msg st = some r ∧
      ∃ gs2, lookup r.state.games w.game_id = some gs2 ∧
        gs2.game.sideToMove = gs.game.sideToMove.other ∧
        gs2.last_move_time = some now ∧
        (gs.game.sideToMove = Color.white →
          gs2.black_time_ms = gs.black_time_ms ∧
          gs2.white_time_ms =
            (match gs.last_move_time with
             | none => gs.white_time_ms
             | some lmt => if gs.white_time_ms > now - lmt
                           then gs.white_time_ms - (now - lmt) + gs.increment_ms
                           else 0)) ∧
        (gs.game.sideToMove = Color.black →
          gs2.white_time_ms = gs.white_time_ms ∧
          gs2.black_time_ms =
            (match gs.last_move_time with
             | none => gs.black_time_ms
             | some lmt => if gs.black_time_ms > now - lmt
                           then gs.black_time_ms - (now - lmt) + gs.increment_ms
                           else 0)) := by
  refine ⟨_, handle_move_success hw hfrom hto hg hres hseat hsq1 hsq2 hpiece happly, ?_⟩
  refine ⟨movedGameState now gs ⟨b2, gs.game.sideToMove.other⟩, ?_, ?_, ?_, ?_, ?_⟩
  · dsimp only []
    rw [lookup_insertKey, if_pos rfl]
  · rw [movedGameState_game]
  · exact movedGameState_last now gs ⟨b2, gs.game.sideToMove.other⟩
  · intro h; exact movedGameState_white now gs ⟨b2, gs.game.sideToMove.other⟩ h
  · intro h; exact movedGameState_black now gs ⟨b2, gs.game.sideToMove.other⟩ h

/-- Witness for C7: white's legal king move at 1200 ms remaining with 1300 ms
elapsed — the turn flips to black, white's clock clamps to zero, black's clock
value is untouched, and `last_move_time` becomes the current instant. -/
theorem c7_move_witness :
    ∃ r, handle_move (engineWithMove 4 12 boardKK2) 1300 ⟨"w1", "g", some Color.white⟩
        (moveMsg "e1" "e2") stateC1w = some r ∧
      ∃ gs2, lookup r.state.games "g" = some gs2 ∧
        gs2.game.sideToMove = Color.black ∧
        gs2.last_move_time = some 1300 ∧
        (gameC1w.game.sideToMove = Color.white →
          gs2.black_time_ms = 5000 ∧ gs2.white_time_ms = 0) ∧
        (gameC1w.game.sideToMove = Color.black →
          gs2.white_time_ms = 1200 ∧ gs2.black_time_ms = 3700) :=
  @c7_move_flips_turn_and_clocks (engineWithMove 4 12 boardKK2) 1300
    ⟨"w1", "g", some Color.white⟩ (moveMsg "e1" "e2") stateC1w gameC1w 4 12
    (Piece.king, Color.white) boardKK2
    (by decide) (by decide) (by decide) rfl rfl rfl rfl rfl rfl rfl

/-- Claim C8: `create` builds the new game with the creator seated as white
(the first-moving color), the black seat empty, both clocks at the requested
allotment (defaults 15 minutes and 10 seconds when the fields are absent),
`last_move_time` unset, seeds the connection index for the fresh game id with
exactly the creator, and replies directly with a `waiting_for_opponent`
status. -/
theorem c8_create_initializes {re : RulesEngine} {gid : String} {w : ChessWebSocket}
    {msg : ClientMessage} {st : AppState}
    (hfresh : lookup st.connections gid = none) :
    handle_create re gid w msg st =
      some ⟨⟨w.id, gid, some Color.white⟩,
            ⟨insertKey st.games gid
               ⟨initialPosition, some w.id, none,
                (msg.start_time_minutes.getD 15) * 60 * 1000,
                (msg.start_time_minutes.getD 15) * 60 * 1000,
                (msg.increment_seconds.getD 10) * 1000, none, some Color.white, none⟩,
             insertKey st.connections gid [w.id], st.sessions⟩,
            [.send ⟨"game_created", some gid, some (re.toText initialPosition),
                    some "white", none, none, none, some "waiting_for_opponent",
                    some ((msg.start_time_minutes.getD 15) * 60 * 1000),
                    some ((msg.start_time_minutes.getD 15) * 60 * 1000),
                    some ((msg.increment_seconds.getD 10) * 1000), none⟩]⟩ := by
  rw [handle_create_eq, hfresh]
  rfl

/-- Witness for C8: a create with absent time fields yields the 15-minute,
10-second defaults, white seat for the creator, empty black seat, unset
`last_move_time`, the fresh game's connection list `[creator]`, and the
`waiting_for_opponent` reply. -/
theorem c8_create_witness :
    lookup (AppState.mk [] [] ["s1"]).connections "g1" = none ∧
    handle_create stubEngine "g1" ⟨"s1", "", none⟩ createMsg ⟨[], [], ["s1"]⟩ =
      some ⟨⟨"s1", "g1", some Color.white⟩,
            ⟨insertKey ([] : List (String × GameState)) "g1"
               ⟨initialPosition, some "s1", none, 900000, 900000, 10000, none,
                some Color.white, none⟩,
             insertKey ([] : List (String × List String)) "g1" ["s1"], ["s1"]⟩,
            [.send ⟨"game_created", some "g1", some (stubEngine.toText initialPosition),
                    some "white", none, none, none, some "waiting_for_opponent",
                    some 900000, some 900000, some 10000, none⟩]⟩ :=
  ⟨rfl, c8_create_initializes rfl⟩

/-- Claim C9: when the last connection of a game disconnects, both the
connection-list entry and the `GameState` entry for that game id are removed,
and any join request then naming that game id is answered with the
game-not-found error. -/
theorem c9_last_disconnect_cleanup {re : RulesEngine} {now : Nat}
    {w : ChessWebSocket} {st : AppState} {l : List String}
    (hw : w.game_id ≠ "")
    (hl : lookup st.connections w.game_id = some l)
    (hlast : l.filter (fun i => i ≠ w.id) = []) :
    lookup (stopping w st).connections w.game_id = none ∧
    lookup (stopping w st).games w.game_id = none ∧
    ∀ (w2 : ChessWebSocket) (msg2 : ClientMessage), msg2.game_id = some w.game_id →
      (handle_join re now w2 msg2 (stopping w st)).effects =
        [.send (errorMsg (some w.game_id) "Game not found")] := by
  have hstop : stopping w st =
      ⟨removeKey st.games w.game_id, removeKey st.connections w.game_id,
       st.sessions.filter (fun i => i ≠ w.id)⟩ := by
    unfold stopping
    rw [if_neg hw]
    dsimp only []
    rw [hl]
    dsimp only []
    rw [hlast]
    rw [if_pos (show ([] : List String).isEmpty = true from rfl)]
    dsimp only []
    rw [show lookup (removeKey st.games w.game_id) w.game_id = none from by
      rw [lookup_removeKey, if_pos rfl]]
  have hcn : lookup (stopping w st).connections w.game_id = none := by
    rw [hstop]
    dsimp only []
    rw [lookup_removeKey, if_pos rfl]
  have hgn : lookup (stopping w st).games w.game_id = none := by
    rw [hstop]
    dsimp only []
    rw [lookup_removeKey, if_pos rfl]
  refine ⟨hcn, hgn, ?_⟩
  intro w2 msg2 hmsg
  unfold handle_join
  rw [hmsg]
  dsimp only []
  have hno : lookup (leaveGame w2 (stopping w st)).2.games w.game_id = none := by
    rcases leaveGame_games w2 (stopping w st) with hgm | ⟨hwne, gs0, gsx, hl0, hgm⟩
    · rw [hgm]; exact hgn
    · rw [hgm, lookup_insertKey]
      by_cases heq : w2.game_id = w.game_id
      · rw [heq] at hl0
        rw [hgn] at hl0
        exact Option.noConfusion hl0
      · rw [if_neg heq]; exact hgn
  rw [hno]

/-- Witness for C9: the sole connection of game `"g"` disconnects, both
registry entries for `"g"` vanish, and a fresh session's join of `"g"` is
answered with only the game-not-found error. -/
theorem c9_last_disconnect_witness :
    lookup stateSolo.connections "g" = some ["w1"] ∧
    lookup (stopping ⟨"w1", "g", some Color.white⟩ stateSolo).connections "g" = none ∧
    lookup (stopping ⟨"w1", "g", some Color.white⟩ stateSolo).games "g" = none ∧
    (handle_join stubEngine 0 ⟨"s2", "", none⟩ (joinMsg "g")
       (stopping ⟨"w1", "g", some Color.white⟩ stateSolo)).effects =
      [.send (errorMsg (some "g") "Game not found")] := by
  have h := @c9_last_disconnect_cleanup stubEngine 0 ⟨"w1", "g", some Color.white⟩
    stateSolo ["w1"] (by decide) rfl (by decide)
  exact ⟨rfl, h.1, h.2.1, h.2.2 ⟨"s2", "", none⟩ (joinMsg "g") rfl⟩

/-- Claim C10: `handle_move` constructs its candidate move with no promotion
piece (`ChessMove::new(from, to, None)`, src/main.rs:596); consequently, under
the chess promotion rule — a Rules Engine rejecting any promotion-less pawn
move onto the final rank — such a request is answered with only the
invalid-move error and the registries are returned unchanged, so the interface
never applies a promotion to any game position. -/
theorem c10_no_promotion_moves {re : RulesEngine} {now : Nat} {w : ChessWebSocket}
    {msg : ClientMessage} {st : AppState} {gs : GameState} {fs ts : Nat}
    {pc : Piece × Color}
    (hw : w.game_id ≠ "")
    (hfrom : msg.move_from.getD "" ≠ "") (hto : msg.move_to.getD "" ≠ "")
    (hg : lookup st.games w.game_id = some gs)
    (hres : gs.game_result = none)
    (hseat : seatColor gs w.id = some gs.game.sideToMove)
    (hsq1 : squareFromStr (msg.move_from.getD "") = some fs)
    (hsq2 : squareFromStr (msg.move_to.getD "") = some ts)
    (hpiece : gs.game.board fs = some pc)
    (hre : ∀ p mv, mv.promotion = none → isPawnToLastRank p mv = true →
      re.applyMove p mv = none)
    (hpawn : isPawnToLastRank gs.game ⟨fs, ts, none⟩ = true) :
    handle_move re now w msg st =
      some ⟨w, st, [.send (errorMsg (some w.game_id) "Invalid move")]⟩ :=
  handle_move_rejected hw hfrom hto hg hres hseat hsq1 hsq2 hpiece
    (hre gs.game ⟨fs, ts, none⟩ rfl hpawn)

/-- Witness for C10: white's pawn on a7 pushed to a8 without a promotion piece
is rejected with the invalid-move error, the state untouched. -/
theorem c10_no_promotion_witness :
    isPawnToLastRank gamePawn.game ⟨48, 56, none⟩ = true ∧
    handle_move stubEngine 0 ⟨"w1", "g", some Color.white⟩ (moveMsg "a7" "a8") statePawn =
      some ⟨⟨"w1", "g", some Color.white⟩, statePawn,
            [.send (errorMsg (some "g") "Invalid move")]⟩ :=
  ⟨rfl, @c10_no_promotion_moves stubEngine 0 ⟨"w1", "g", some Color.white⟩
     (moveMsg "a7" "a8") statePawn gamePawn 48 56 (Piece.pawn, Color.white)
     (by decide) (by decide) (by decide) rfl rfl rfl rfl rfl rfl
     (fun _ _ _ _ => rfl) rfl⟩

end OnlineChess
